import Mathlib

/-!
# Shallow embedding of the karatOS scheduler core

This file embeds the scheduler subsystem of `src/kernel/src/scheduler.rs`
(types `EventPriority`, `Event`, `TaskState`, `TaskPriority`, `Task`,
`LockFreeEventQueue`, `AsyncScheduler`, `MultiPriorityExecutor`) and proves
properties of the embedded operations.

Modelling conventions:
* Rust `u32`/`usize` values are modelled as `Nat`.  The ring-buffer
  `head`/`tail` counters are monotonic machine integers in the source; we
  model them as unbounded naturals.  In every state reachable by the ring
  operations `head ≤ tail` and `tail - head ≤ N` hold, and under those bounds
  `tail.wrapping_sub(head)` equals the natural subtraction `tail - head`, and
  `tail % N` is unaffected by the machine wrap because the capacity divides
  the machine modulus; so the unbounded model agrees with the machine one on
  all reachable states.  Where the source performs `u32` addition that can
  overflow (the sleep deadline `timer_base + duration`), we take the
  release-build wrapping semantics and write `% U32` explicitly.
* The task table `[Option<Task>; MAX_TASKS]` becomes `Fin MAX_TASKS → Option
  Task`; stored slot indices (`current_task`, `next_task`) are `Option Nat`
  as in the source (`Option<usize>`), with a bounds-checked getter/setter.
  All indices produced by the source code are `< MAX_TASKS`.
* The source's `handle_event` consists of a `match` on the event id whose
  arms are all empty, so it leaves the scheduler unchanged; `process_events`
  is instrumented to additionally return the list of events it handled, in
  order (the source returns their count, which is the length of that list).
-/

namespace KOS

def MAX_TASKS : Nat := 8
def MAX_EVENTS_PER_PRIORITY : Nat := 16

/-- Modulus of the 32-bit machine integers used by the scheduler. -/
def U32 : Nat := 2 ^ 32

/-- Event priority levels (`EventPriority` in the source): Critical=0, High=1,
Normal=2, Low=3. -/
inductive EventPriority
  | Critical
  | High
  | Normal
  | Low
deriving DecidableEq

/-- Numeric discriminant of an event priority, as declared in the source. -/
def EventPriority.toNat : EventPriority → Nat
  | .Critical => 0
  | .High => 1
  | .Normal => 2
  | .Low => 3

/-- Event structure (`Event` in the source). -/
structure Event where
  id : Nat
  priority : EventPriority
  data : Nat
deriving DecidableEq

/-- `Event::new`. -/
def Event.new (id : Nat) (priority : EventPriority) : Event :=
  { id := id, priority := priority, data := 0 }

/-- `Event::with_data`. -/
def Event.with_data (id : Nat) (priority : EventPriority) (data : Nat) : Event :=
  { id := id, priority := priority, data := data }

/-- Task states (`TaskState` in the source). -/
inductive TaskState
  | Ready
  | Running
  | WaitingForEvent (id : Nat)
  | Sleeping (wake_time : Nat)
  | Completed
deriving DecidableEq

/-- Task priority levels (`TaskPriority` in the source): Critical=0, High=1,
Normal=2, Low=3. -/
inductive TaskPriority
  | Critical
  | High
  | Normal
  | Low
deriving DecidableEq

/-- Numeric discriminant of a task priority, as declared in the source. -/
def TaskPriority.toNat : TaskPriority → Nat
  | .Critical => 0
  | .High => 1
  | .Normal => 2
  | .Low => 3

/-- The task record used by `AsyncScheduler` (`Task` in the source). -/
structure Task where
  id : Nat
  priority : TaskPriority
  state : TaskState
  waiting_event : Option Nat
deriving DecidableEq

/-- `Task::with_priority`. -/
def Task.with_priority (id : Nat) (priority : TaskPriority) : Task :=
  { id := id, priority := priority, state := .Ready, waiting_event := none }

/-- `Task::new` (defaults to Normal priority). -/
def Task.new (id : Nat) : Task :=
  Task.with_priority id .Normal

/-- `Task::is_ready`: `matches!(self.state, TaskState::Ready)`. -/
def Task.is_ready (t : Task) : Bool :=
  match t.state with
  | .Ready => true
  | _ => false

/-- The lock-free bounded ring (`LockFreeEventQueue<N>` in the source).  The
backing array `[MaybeUninit<Event>; N]` is modelled as a total function; all
source accesses index it at a counter `% N`.  Slots never written hold the
arbitrary initial value and are never read in reachable states. -/
structure LockFreeEventQueue where
  buffer : Nat → Event
  head : Nat
  tail : Nat

/-- `LockFreeEventQueue::new`: head = tail = 0, buffer uninitialised (we pick
an arbitrary fixed fill for the uninitialised slots). -/
def LockFreeEventQueue.init : LockFreeEventQueue :=
  { buffer := fun _ => Event.new 0 .Critical, head := 0, tail := 0 }

/-- `LockFreeEventQueue::push`: fails (returning the event back) when
`tail.wrapping_sub(head) >= N`; otherwise writes at `tail % N` and increments
`tail`. -/
def LockFreeEventQueue.push (N : Nat) (q : LockFreeEventQueue) (e : Event) :
    LockFreeEventQueue × Except Event Unit :=
  if q.tail - q.head ≥ N then
    (q, .error e)
  else
    ({ q with buffer := fun j => if j = q.tail % N then e else q.buffer j,
              tail := q.tail + 1 },
     .ok ())

/-- `LockFreeEventQueue::pop`: returns `none` when `head == tail`; otherwise
reads at `head % N` and increments `head`. -/
def LockFreeEventQueue.pop (N : Nat) (q : LockFreeEventQueue) :
    Option Event × LockFreeEventQueue :=
  if q.head = q.tail then
    (none, q)
  else
    (some (q.buffer (q.head % N)), { q with head := q.head + 1 })

/-- `LockFreeEventQueue::is_empty`. -/
def LockFreeEventQueue.is_empty (q : LockFreeEventQueue) : Bool :=
  q.head = q.tail

/-- Abstraction function: the events currently stored in the ring, in FIFO
order from head to tail. -/
def LockFreeEventQueue.toList (N : Nat) (q : LockFreeEventQueue) : List Event :=
  (List.range (q.tail - q.head)).map (fun i => q.buffer ((q.head + i) % N))

/-- `drainAux N q k` pops up to `k` events and returns them in pop order. -/
def LockFreeEventQueue.drainAux (N : Nat) (q : LockFreeEventQueue) :
    Nat → List Event
  | 0 => []
  | k + 1 =>
    match q.pop N with
    | (some e, q1) => e :: q1.drainAux N k
    | (none, _) => []

/-- The sequence of events obtained by popping the ring until it is empty. -/
def LockFreeEventQueue.drain (N : Nat) (q : LockFreeEventQueue) : List Event :=
  q.drainAux N (q.tail - q.head)

/-- Pushing each event of a list in turn; `none` when some push fails. -/
def LockFreeEventQueue.pushAll (N : Nat) (q : LockFreeEventQueue) :
    List Event → Option LockFreeEventQueue
  | [] => some q
  | e :: es =>
    match q.push N e with
    | (q1, .ok _) => q1.pushAll N es
    | (_, .error _) => none

theorem LockFreeEventQueue.toList_push_ok (N : Nat) (q : LockFreeEventQueue)
    (e : Event) (hle : q.head ≤ q.tail) (hlt : q.tail - q.head < N) :
    (q.push N e).1.toList N = q.toList N ++ [e] ∧
      (q.push N e).2 = .ok () ∧ (q.push N e).1.head = q.head ∧
      (q.push N e).1.tail = q.tail + 1 := by
  have hnot : ¬ q.tail - q.head ≥ N := by omega
  rw [push, if_neg hnot]
  refine ⟨?_, rfl, rfl, rfl⟩
  simp only [toList]
  have hlen : q.tail + 1 - q.head = (q.tail - q.head) + 1 := by omega
  rw [hlen, List.range_succ, List.map_append]
  congr 1
  · apply List.map_congr_left
    intro i hi
    have hi8 : i < q.tail - q.head := List.mem_range.mp hi
    have hne : (q.head + i) % N ≠ q.tail % N := by
      intro hcontra
      have hdvd : N ∣ q.tail - (q.head + i) :=
        (Nat.modEq_iff_dvd' (by omega)).mp hcontra
      have hge : N ≤ q.tail - (q.head + i) := Nat.le_of_dvd (by omega) hdvd
      omega
    simp only [hne, if_false]
  · have hidx : q.head + (q.tail - q.head) = q.tail := by omega
    simp [hidx]

/-- The `AsyncScheduler` singleton state.  Atomics (`AtomicBool`, `AtomicU32`)
are plain fields: every access in the source happens inside the interrupt-
masking critical section, so the state is sequential. -/
structure AsyncScheduler where
  tasks : Fin MAX_TASKS → Option Task
  current_task : Option Nat
  next_task : Option Nat
  critical_events : LockFreeEventQueue
  high_events : LockFreeEventQueue
  normal_events : LockFreeEventQueue
  low_events : LockFreeEventQueue
  needs_reschedule : Bool
  active_tasks : Nat
  event_counter : Nat
  timer_base : Nat

/-- `AsyncScheduler::new`. -/
def AsyncScheduler.init : AsyncScheduler :=
  { tasks := fun _ => none
    current_task := none
    next_task := none
    critical_events := .init
    high_events := .init
    normal_events := .init
    low_events := .init
    needs_reschedule := false
    active_tasks := 0
    event_counter := 0
    timer_base := 0 }

/-- Bounds-checked read of `self.tasks[i]` (all indices the source produces
are `< MAX_TASKS`; an out-of-range index would panic in Rust and is never
reached). -/
def AsyncScheduler.getTask (s : AsyncScheduler) (i : Nat) : Option Task :=
  if h : i < MAX_TASKS then s.tasks ⟨i, h⟩ else none

/-- Bounds-checked write of `self.tasks[i]`. -/
def AsyncScheduler.setTask (s : AsyncScheduler) (i : Nat) (v : Option Task) :
    AsyncScheduler :=
  if h : i < MAX_TASKS then
    { s with tasks := fun j => if j = ⟨i, h⟩ then v else s.tasks j }
  else s

/-- The first free slot, as scanned by `spawn_task`'s loop. -/
def AsyncScheduler.findFreeSlot (s : AsyncScheduler) : Option (Fin MAX_TASKS) :=
  (List.finRange MAX_TASKS).find? (fun i => (s.tasks i).isNone)

/-- `AsyncScheduler::spawn_task`: place the task in the first free slot,
bump `active_tasks`, set `needs_reschedule`; `Err(())` when the table is
full. -/
def AsyncScheduler.spawn_task (s : AsyncScheduler) (t : Task) :
    AsyncScheduler × Except Unit Nat :=
  match s.findFreeSlot with
  | some i =>
    ({ s with tasks := fun j => if j = i then some t else s.tasks j,
              active_tasks := (s.active_tasks + 1) % U32,
              needs_reschedule := true },
     .ok i.val)
  | none => (s, .error ())

/-- The event ring for a given priority. -/
def AsyncScheduler.getQueue (s : AsyncScheduler) :
    EventPriority → LockFreeEventQueue
  | .Critical => s.critical_events
  | .High => s.high_events
  | .Normal => s.normal_events
  | .Low => s.low_events

/-- Replace the event ring for a given priority. -/
def AsyncScheduler.setQueue (s : AsyncScheduler) (p : EventPriority)
    (q : LockFreeEventQueue) : AsyncScheduler :=
  match p with
  | .Critical => { s with critical_events := q }
  | .High => { s with high_events := q }
  | .Normal => { s with normal_events := q }
  | .Low => { s with low_events := q }

/-- `if let TaskState::WaitingForEvent(waiting_id) = task.state { waiting_id
== event_id }` — the state test of `wake_waiting_tasks`'s loop. -/
def waitingBool (event_id : Nat) : TaskState → Bool
  | .WaitingForEvent w => w == event_id
  | _ => false

/-- The slot test of `wake_waiting_tasks`'s loop, on the slot's content. -/
def slotWaits (event_id : Nat) : Option Task → Bool
  | some t => waitingBool event_id t.state
  | none => false

/-- The loop test of `wake_waiting_tasks`: slot `i` holds a task in state
`WaitingForEvent(event_id)`. -/
def AsyncScheduler.isWaiterSlot (s : AsyncScheduler) (event_id : Nat)
    (i : Fin MAX_TASKS) : Bool :=
  slotWaits event_id (s.tasks i)

/-- The first slot (lowest index) holding a task in state
`WaitingForEvent(event_id)`, as scanned by `wake_waiting_tasks`'s loop. -/
def AsyncScheduler.findWaiter (s : AsyncScheduler) (event_id : Nat) :
    Option (Fin MAX_TASKS) :=
  (List.finRange MAX_TASKS).find? (s.isWaiterSlot event_id)

/-- The state after `wake_waiting_tasks`'s loop body fires at slot `i`
holding task `t`: `t` becomes Ready with `waiting_event` cleared, the hot
slot `next_task` is replaced by `i`, and `needs_reschedule` is set.  The
displaced old hot slot is handled afterwards. -/
def AsyncScheduler.wakeStage (s : AsyncScheduler) (i : Fin MAX_TASKS)
    (t : Task) : AsyncScheduler :=
  { s with
    tasks := fun j =>
      if j = i then some { t with state := .Ready, waiting_event := none }
      else s.tasks j,
    next_task := some i.val,
    needs_reschedule := true }

/-- `AsyncScheduler::wake_waiting_tasks`: wake the first matching waiter
(Ready, `waiting_event` cleared), stage it in the hot slot `next_task`
(recording the displaced hot-slot index `displaced_task_id = s.next_task`),
set `needs_reschedule`, and stop; afterwards demote the displaced task to
Ready if it was Running. -/
def AsyncScheduler.wake_waiting_tasks (s : AsyncScheduler) (event_id : Nat) :
    AsyncScheduler :=
  match s.findWaiter event_id with
  | none => s
  | some i =>
    match s.tasks i with
    | none => s
    | some t =>
      let s1 := s.wakeStage i t
      match s.next_task with
      | none => s1
      | some d =>
        match s1.getTask d with
        | some dt =>
          if dt.state = TaskState.Running then
            s1.setTask d (some { dt with state := .Ready })
          else s1
        | none => s1

/-- The scheduler state after `post_event`'s successful push and
`event_counter` increment, before `wake_waiting_tasks` runs: the ring of the
event's priority is replaced by its pushed successor and the counter is
bumped (u32 wrap).  `setQueue` leaves `event_counter` alone, so the bump
reads `s.event_counter`. -/
def AsyncScheduler.postMid (s : AsyncScheduler) (e : Event) : AsyncScheduler :=
  { s.setQueue e.priority
      ((s.getQueue e.priority).push MAX_EVENTS_PER_PRIORITY e).1 with
    event_counter := (s.event_counter + 1) % U32 }

/-- `AsyncScheduler::post_event`: push into the ring of the event's priority;
on success bump `event_counter` and run `wake_waiting_tasks`; on a full ring
return `false` with the state unchanged (`push` hands the queue back
untouched on failure). -/
def AsyncScheduler.post_event (s : AsyncScheduler) (e : Event) :
    AsyncScheduler × Bool :=
  match ((s.getQueue e.priority).push MAX_EVENTS_PER_PRIORITY e).2 with
  | .ok _ => ((s.postMid e).wake_waiting_tasks e.id, true)
  | .error _ => (s, false)

/-- `AsyncScheduler::handle_event`: the source matches on `event.id` with
empty arms only, so the scheduler state is unchanged. -/
def AsyncScheduler.handle_event (s : AsyncScheduler) (_e : Event) :
    AsyncScheduler :=
  s

/-- `AsyncScheduler::process_events`: pop at most one event from each ring in
the order Critical, High, Normal, Low and hand each to `handle_event`.  The
returned list is the sequence of handled events in order; the source returns
its length (`processed`). -/
def AsyncScheduler.process_events (s : AsyncScheduler) :
    AsyncScheduler × List Event :=
  let pc := s.critical_events.pop MAX_EVENTS_PER_PRIORITY
  let sc := { s with critical_events := pc.2 }
  let rc : AsyncScheduler × List Event :=
    match pc.1 with
    | some e => (sc.handle_event e, [e])
    | none => (sc, [])
  let ph := rc.1.high_events.pop MAX_EVENTS_PER_PRIORITY
  let sh := { rc.1 with high_events := ph.2 }
  let rh : AsyncScheduler × List Event :=
    match ph.1 with
    | some e => (sh.handle_event e, rc.2 ++ [e])
    | none => (sh, rc.2)
  let pn := rh.1.normal_events.pop MAX_EVENTS_PER_PRIORITY
  let sn := { rh.1 with normal_events := pn.2 }
  let rn : AsyncScheduler × List Event :=
    match pn.1 with
    | some e => (sn.handle_event e, rh.2 ++ [e])
    | none => (sn, rh.2)
  let pl := rn.1.low_events.pop MAX_EVENTS_PER_PRIORITY
  let sl := { rn.1 with low_events := pl.2 }
  match pl.1 with
  | some e => (sl.handle_event e, rn.2 ++ [e])
  | none => (sl, rn.2)

/-- `AsyncScheduler::block_current_task`: move the current task to
`WaitingForEvent(event_id)` (caching the id in `waiting_event`), clear
`current_task`, set `needs_reschedule`; no-op when nothing is running. -/
def AsyncScheduler.block_current_task (s : AsyncScheduler) (event_id : Nat) :
    AsyncScheduler :=
  match s.current_task with
  | none => s
  | some current_id =>
    let s1 :=
      match s.getTask current_id with
      | some t =>
        s.setTask current_id
          (some { t with state := .WaitingForEvent event_id,
                         waiting_event := some event_id })
      | none => s
    { s1 with current_task := none, needs_reschedule := true }

/-- `AsyncScheduler::sleep_current_task`: store the absolute deadline
`timer_base + duration` (u32 addition, wrapping in release builds) and move
the current task to `Sleeping`; clear `current_task`, set
`needs_reschedule`. -/
def AsyncScheduler.sleep_current_task (s : AsyncScheduler) (duration : Nat) :
    AsyncScheduler :=
  match s.current_task with
  | none => s
  | some current_id =>
    let s1 :=
      match s.getTask current_id with
      | some t =>
        s.setTask current_id
          (some { t with state := .Sleeping ((s.timer_base + duration) % U32) })
      | none => s
    { s1 with current_task := none, needs_reschedule := true }

/-- One slot of `update_timer`'s wake-up loop: a Sleeping task whose deadline
is `≤ current_time` becomes Ready and sets `needs_reschedule`. -/
def AsyncScheduler.wakeSleepStep (current_time : Nat) (s : AsyncScheduler)
    (i : Fin MAX_TASKS) : AsyncScheduler :=
  match s.tasks i with
  | some t =>
    match t.state with
    | .Sleeping wake_time =>
      if current_time ≥ wake_time then
        { s with tasks := fun j =>
                   if j = i then some { t with state := .Ready } else s.tasks j,
                 needs_reschedule := true }
      else s
    | _ => s
  | none => s

/-- `AsyncScheduler::update_timer`: store the new time in `timer_base`, then
wake every Sleeping task whose deadline has passed. -/
def AsyncScheduler.update_timer (s : AsyncScheduler) (current_time : Nat) :
    AsyncScheduler :=
  (List.finRange MAX_TASKS).foldl (AsyncScheduler.wakeSleepStep current_time)
    { s with timer_base := current_time }

/-- The slot test of `schedule`'s rescan loop, on the slot's content. -/
def slotReady : Option Task → Bool
  | some t => t.is_ready
  | none => false

/-- The loop test of `schedule`'s rescan: slot `tid` holds a Ready task. -/
def AsyncScheduler.isReadySlot (s : AsyncScheduler) (tid : Nat) : Bool :=
  slotReady (s.getTask tid)

/-- The index produced by `schedule`'s round-robin rescan loop: the first
index in the order `start, start+1, …` (mod `MAX_TASKS`, `MAX_TASKS`
candidates) whose slot holds a Ready task. -/
def AsyncScheduler.findReadyFrom (s : AsyncScheduler) (start : Nat) :
    Option Nat :=
  ((List.range MAX_TASKS).map (fun i => (start + i) % MAX_TASKS)).find?
    s.isReadySlot

/-- The rescan's first step: `if let Some(current_id) = self.current_task`,
mark the current task Ready if it is still Running. -/
def AsyncScheduler.demoteCurrent (s : AsyncScheduler) : AsyncScheduler :=
  match s.current_task with
  | some current_id =>
    match s.getTask current_id with
    | some t =>
      if t.state = TaskState.Running then
        s.setTask current_id (some { t with state := .Ready })
      else s
    | none => s
  | none => s

/-- The rescan's loop: mark the first Ready task in round-robin order from
`start` as Running and make it current; no change when none is Ready. -/
def AsyncScheduler.rescanPick (s : AsyncScheduler) (start : Nat) :
    AsyncScheduler :=
  match s.findReadyFrom start with
  | some tid =>
    match s.getTask tid with
    | some t =>
      { s.setTask tid (some { t with state := .Running }) with
        current_task := some tid }
    | none => s
  | none => s

/-- The part of `AsyncScheduler::schedule` after the hot-slot fast path:
`needs_reschedule.swap(false)` (always clearing the flag), and when the old
flag was set or nothing is current, demote a Running current task to Ready
and pick the first Ready task in round-robin order starting just after
`current_task` (or at 0). -/
def AsyncScheduler.scheduleRescan (s : AsyncScheduler) : AsyncScheduler :=
  let old_flag := s.needs_reschedule
  let s := { s with needs_reschedule := false }
  if old_flag || s.current_task.isNone then
    let s := s.demoteCurrent
    let start :=
      match s.current_task with
      | some id => (id + 1) % MAX_TASKS
      | none => 0
    s.rescanPick start
  else s

/-- The body of the hot-slot fast path once the staged task is known Ready:
demote a different Running current task to Ready, then mark the staged task
Running and make it current. -/
def AsyncScheduler.hotCommit (s : AsyncScheduler) (next_id : Nat) :
    AsyncScheduler :=
  let s :=
    match s.current_task with
    | some current_id =>
      if current_id ≠ next_id then
        match s.getTask current_id with
        | some ct =>
          if ct.state = TaskState.Running then
            s.setTask current_id (some { ct with state := .Ready })
          else s
        | none => s
      else s
    | none => s
  match s.getTask next_id with
  | some t =>
    { s.setTask next_id (some { t with state := .Running }) with
      current_task := some next_id }
  | none => s

/-- `AsyncScheduler::schedule`: process one dispatch pass of events, then try
the hot slot (`next_task.take()`), falling back to the rescan; returns the
task now designated by `current_task`. -/
def AsyncScheduler.schedule (s : AsyncScheduler) :
    AsyncScheduler × Option Task :=
  let s := (s.process_events).1
  let hot := s.next_task
  let s := { s with next_task := none }
  let hot_ready :=
    match hot with
    | some next_id =>
      match s.getTask next_id with
      | some t => t.is_ready
      | none => false
    | none => false
  match hot, hot_ready with
  | some next_id, true =>
    let s := s.hotCommit next_id
    (s, s.getTask next_id)
  | _, _ =>
    let s := s.scheduleRescan
    (s, match s.current_task with
        | some id => s.getTask id
        | none => none)

/-- `MultiPriorityExecutor`: four per-priority `AsyncScheduler` instances. -/
structure MultiPriorityExecutor where
  critical_scheduler : AsyncScheduler
  high_scheduler : AsyncScheduler
  normal_scheduler : AsyncScheduler
  low_scheduler : AsyncScheduler
  current_priority : Nat

/-- `MultiPriorityExecutor::new`. -/
def MultiPriorityExecutor.init : MultiPriorityExecutor :=
  { critical_scheduler := .init
    high_scheduler := .init
    normal_scheduler := .init
    low_scheduler := .init
    current_priority := TaskPriority.Low.toNat }

/-- `MultiPriorityExecutor::spawn_task`: route the task to the scheduler of
its priority class. -/
def MultiPriorityExecutor.spawn_task (m : MultiPriorityExecutor) (t : Task) :
    MultiPriorityExecutor × Except Unit Nat :=
  match t.priority with
  | .Critical =>
    let p := m.critical_scheduler.spawn_task t
    ({ m with critical_scheduler := p.1 }, p.2)
  | .High =>
    let p := m.high_scheduler.spawn_task t
    ({ m with high_scheduler := p.1 }, p.2)
  | .Normal =>
    let p := m.normal_scheduler.spawn_task t
    ({ m with normal_scheduler := p.1 }, p.2)
  | .Low =>
    let p := m.low_scheduler.spawn_task t
    ({ m with low_scheduler := p.1 }, p.2)

/-- `MultiPriorityExecutor::post_event`: route the event to the scheduler of
its priority class. -/
def MultiPriorityExecutor.post_event (m : MultiPriorityExecutor) (e : Event) :
    MultiPriorityExecutor × Bool :=
  match e.priority with
  | .Critical =>
    let p := m.critical_scheduler.post_event e
    ({ m with critical_scheduler := p.1 }, p.2)
  | .High =>
    let p := m.high_scheduler.post_event e
    ({ m with high_scheduler := p.1 }, p.2)
  | .Normal =>
    let p := m.normal_scheduler.post_event e
    ({ m with normal_scheduler := p.1 }, p.2)
  | .Low =>
    let p := m.low_scheduler.post_event e
    ({ m with low_scheduler := p.1 }, p.2)

/-- `MultiPriorityExecutor::run_cycle`: poll the four schedulers in the order
Critical, High, Normal, Low and return the first task obtained, recording its
priority level. -/
def MultiPriorityExecutor.run_cycle (m : MultiPriorityExecutor) :
    MultiPriorityExecutor × Option Task :=
  let pc := m.critical_scheduler.schedule
  let m := { m with critical_scheduler := pc.1 }
  match pc.2 with
  | some t => ({ m with current_priority := TaskPriority.Critical.toNat }, some t)
  | none =>
    let ph := m.high_scheduler.schedule
    let m := { m with high_scheduler := ph.1 }
    match ph.2 with
    | some t => ({ m with current_priority := TaskPriority.High.toNat }, some t)
    | none =>
      let pn := m.normal_scheduler.schedule
      let m := { m with normal_scheduler := pn.1 }
      match pn.2 with
      | some t => ({ m with current_priority := TaskPriority.Normal.toNat }, some t)
      | none =>
        let pl := m.low_scheduler.schedule
        let m := { m with low_scheduler := pl.1 }
        match pl.2 with
        | some t => ({ m with current_priority := TaskPriority.Low.toNat }, some t)
        | none => (m, none)

/-- The public operations of the scheduler API (spawn / post / block / sleep
/ tick-advance / next-to-run), as applied to the single `AsyncScheduler`
singleton by the wrappers at the bottom of `scheduler.rs`. -/
inductive SchedOp
  | spawn (id : Nat) (priority : TaskPriority)
  | post (e : Event)
  | block (event_id : Nat)
  | sleep (duration : Nat)
  | tick (t : Nat)
  | sched

/-- Effect of one public operation on the scheduler state (return values
discarded).  `spawn` inserts `Task::with_priority(id, priority)` (a Ready
task) as the bring-up code does; `tick` passes a `u32` value. -/
def SchedOp.apply (s : AsyncScheduler) : SchedOp → AsyncScheduler
  | .spawn id priority => (s.spawn_task (Task.with_priority id priority)).1
  | .post e => (s.post_event e).1
  | .block event_id => s.block_current_task event_id
  | .sleep duration => s.sleep_current_task duration
  | .tick t => s.update_timer (t % U32)
  | .sched => (s.schedule).1

/-- The scheduler state reached from the initial empty scheduler by a
sequence of public operations. -/
def runOps (ops : List SchedOp) : AsyncScheduler :=
  ops.foldl SchedOp.apply AsyncScheduler.init

theorem LockFreeEventQueue.pop_spec (N : Nat) (q : LockFreeEventQueue)
    (hle : q.head ≤ q.tail) (hne : q.head ≠ q.tail) :
    q.toList N = q.buffer (q.head % N) :: ((q.pop N).2.toList N) ∧
      (q.pop N).1 = some (q.buffer (q.head % N)) ∧
      (q.pop N).2.head = q.head + 1 ∧ (q.pop N).2.tail = q.tail ∧
      (q.pop N).2.buffer = q.buffer := by
  rw [pop, if_neg hne]
  refine ⟨?_, rfl, rfl, rfl, rfl⟩
  have hk : q.tail - q.head = (q.tail - (q.head + 1)) + 1 := by omega
  rw [toList, hk, List.range_succ_eq_map, List.map_cons, List.map_map]
  rw [toList]
  simp only [Nat.add_zero]
  congr 1
  apply List.map_congr_left
  intro i _
  simp only [Function.comp]
  congr 2
  omega

theorem LockFreeEventQueue.drainAux_eq_toList (N : Nat) :
    ∀ (k : Nat) (q : LockFreeEventQueue), q.head ≤ q.tail →
      q.tail - q.head = k → q.drainAux N k = q.toList N := by
  intro k
  induction k with
  | zero =>
    intro q hle hk
    have ht : q.tail = q.head := by omega
    simp [drainAux, toList, ht]
  | succ n ih =>
    intro q hle hk
    have hne : q.head ≠ q.tail := by omega
    have h2 : (q.pop N).2 = { q with head := q.head + 1 } := by
      rw [pop, if_neg hne]
    obtain ⟨htl, hp1, hh, ht, _⟩ := q.pop_spec N hle hne
    rw [drainAux, pop, if_neg hne]
    simp only
    rw [htl, h2]
    congr 1
    exact ih { q with head := q.head + 1 }
      (show q.head + 1 ≤ q.tail by omega)
      (show q.tail - (q.head + 1) = n by omega)

theorem LockFreeEventQueue.drain_eq_toList (N : Nat) (q : LockFreeEventQueue)
    (hle : q.head ≤ q.tail) : q.drain N = q.toList N :=
  LockFreeEventQueue.drainAux_eq_toList N (q.tail - q.head) q hle rfl

theorem LockFreeEventQueue.pushAll_spec (N : Nat) :
    ∀ (es : List Event) (q q' : LockFreeEventQueue), q.head ≤ q.tail →
      q.pushAll N es = some q' →
      q'.toList N = q.toList N ++ es ∧ q'.head = q.head ∧
        q'.tail = q.tail + es.length := by
  intro es
  induction es with
  | nil =>
    intro q q' hle hp
    rw [pushAll] at hp
    cases hp
    simp
  | cons e es ih =>
    intro q q' hle hp
    rw [pushAll] at hp
    by_cases hfull : q.tail - q.head ≥ N
    · rw [push, if_pos hfull] at hp
      simp at hp
    · obtain ⟨htl, hok, hh, ht⟩ := q.toList_push_ok N e hle (by omega)
      rw [show q.push N e = ((q.push N e).1, (q.push N e).2) from rfl, hok] at hp
      simp only at hp
      obtain ⟨h1, h2, h3⟩ := ih (q.push N e).1 q' (by omega) hp
      refine ⟨?_, by omega, by simp [h3, ht]; omega⟩
      rw [h1, htl, List.append_assoc]
      rfl

/-- C5: pushing into a ring that already holds exactly
`MAX_EVENTS_PER_PRIORITY` events fails, hands the very same event back, and
leaves the ring (its buffer, head and tail, hence its stored contents and
their pop order) unchanged. -/
theorem C5_push_full_ring (q : LockFreeEventQueue) (e : Event)
    (hfull : q.tail - q.head = MAX_EVENTS_PER_PRIORITY) :
    q.push MAX_EVENTS_PER_PRIORITY e = (q, .error e) ∧
      (q.push MAX_EVENTS_PER_PRIORITY e).1.toList MAX_EVENTS_PER_PRIORITY =
        q.toList MAX_EVENTS_PER_PRIORITY ∧
      (q.push MAX_EVENTS_PER_PRIORITY e).1.drain MAX_EVENTS_PER_PRIORITY =
        q.drain MAX_EVENTS_PER_PRIORITY ∧
      (q.push MAX_EVENTS_PER_PRIORITY e).1.head = q.head ∧
      (q.push MAX_EVENTS_PER_PRIORITY e).1.tail = q.tail := by
  have h : q.push MAX_EVENTS_PER_PRIORITY e = (q, .error e) := by
    rw [LockFreeEventQueue.push, if_pos (by omega)]
  exact ⟨h, by rw [h], by rw [h], by rw [h], by rw [h]⟩

/-- A concrete ring holding exactly 16 events (ids 0..15). -/
def C5fullRing : LockFreeEventQueue :=
  { buffer := fun i => Event.new i .Normal, head := 0,
    tail := MAX_EVENTS_PER_PRIORITY }

/-- Witness for C5 at a concrete full ring. -/
theorem C5_witness :
    C5fullRing.tail - C5fullRing.head = MAX_EVENTS_PER_PRIORITY ∧
      C5fullRing.push MAX_EVENTS_PER_PRIORITY (Event.new 99 .Normal) =
        (C5fullRing, .error (Event.new 99 .Normal)) :=
  ⟨by decide, (C5_push_full_ring C5fullRing (Event.new 99 .Normal) (by decide)).1⟩

/-- C6: FIFO order within one ring — if the `n` pushes of `es` all succeed,
the ring afterwards holds its previous contents followed by `es`, and popping
it to exhaustion returns exactly that sequence; in particular from an empty
ring the pops return `es` in push order. -/
theorem C6_fifo_order (q q' : LockFreeEventQueue) (es : List Event)
    (hle : q.head ≤ q.tail)
    (hp : q.pushAll MAX_EVENTS_PER_PRIORITY es = some q') :
    q'.toList MAX_EVENTS_PER_PRIORITY = q.toList MAX_EVENTS_PER_PRIORITY ++ es ∧
      q'.drain MAX_EVENTS_PER_PRIORITY =
        q.toList MAX_EVENTS_PER_PRIORITY ++ es ∧
      (q.toList MAX_EVENTS_PER_PRIORITY = [] →
        q'.drain MAX_EVENTS_PER_PRIORITY = es) := by
  obtain ⟨h1, h2, h3⟩ :=
    LockFreeEventQueue.pushAll_spec MAX_EVENTS_PER_PRIORITY es q q' hle hp
  have hle2 : q'.head ≤ q'.tail := by omega
  have hd := q'.drain_eq_toList MAX_EVENTS_PER_PRIORITY hle2
  refine ⟨h1, by rw [hd, h1], ?_⟩
  intro hnil
  rw [hd, h1, hnil]
  rfl

/-- The ring obtained by pushing events 10, 11, 12 into an empty ring. -/
def C6ring : LockFreeEventQueue :=
  (((LockFreeEventQueue.init.push MAX_EVENTS_PER_PRIORITY
      (Event.new 10 .Normal)).1.push MAX_EVENTS_PER_PRIORITY
      (Event.new 11 .Normal)).1.push MAX_EVENTS_PER_PRIORITY
      (Event.new 12 .Normal)).1

/-- Witness for C6 at a concrete sequence of three pushes into the empty
ring. -/
theorem C6_witness :
    LockFreeEventQueue.init.head ≤ LockFreeEventQueue.init.tail ∧
      C6ring.drain MAX_EVENTS_PER_PRIORITY =
        [Event.new 10 .Normal, Event.new 11 .Normal, Event.new 12 .Normal] :=
  ⟨Nat.le_refl 0,
    (C6_fifo_order LockFreeEventQueue.init C6ring
        [Event.new 10 .Normal, Event.new 11 .Normal, Event.new 12 .Normal]
        (Nat.le_refl 0) rfl).2.2 rfl⟩

/-- C4: one dispatch pass (`process_events`) pops exactly one event from each
non-empty ring — `pop` yields an event precisely when `head ≠ tail` — in the
order Critical, High, Normal, Low, hence at most four events; all other
scheduler state (task table, current task, hot slot, flag, counters, timer)
is untouched, and each ring is left in its once-popped state. -/
theorem C4_dispatch_one_per_ring (s : AsyncScheduler) :
    (s.process_events).2 =
      ((s.critical_events.pop MAX_EVENTS_PER_PRIORITY).1).toList ++
        ((s.high_events.pop MAX_EVENTS_PER_PRIORITY).1).toList ++
        ((s.normal_events.pop MAX_EVENTS_PER_PRIORITY).1).toList ++
        ((s.low_events.pop MAX_EVENTS_PER_PRIORITY).1).toList ∧
      (s.process_events).1.critical_events =
        (s.critical_events.pop MAX_EVENTS_PER_PRIORITY).2 ∧
      (s.process_events).1.high_events =
        (s.high_events.pop MAX_EVENTS_PER_PRIORITY).2 ∧
      (s.process_events).1.normal_events =
        (s.normal_events.pop MAX_EVENTS_PER_PRIORITY).2 ∧
      (s.process_events).1.low_events =
        (s.low_events.pop MAX_EVENTS_PER_PRIORITY).2 ∧
      (s.process_events).1.tasks = s.tasks ∧
      (s.process_events).1.current_task = s.current_task ∧
      (s.process_events).1.next_task = s.next_task ∧
      (s.process_events).1.needs_reschedule = s.needs_reschedule ∧
      (s.process_events).1.active_tasks = s.active_tasks ∧
      (s.process_events).1.event_counter = s.event_counter ∧
      (s.process_events).1.timer_base = s.timer_base ∧
      (s.process_events).2.length ≤ 4 := by
  unfold AsyncScheduler.process_events AsyncScheduler.handle_event
  rcases hc : (s.critical_events.pop MAX_EVENTS_PER_PRIORITY).1 with _ | ec <;>
    rcases hh : (s.high_events.pop MAX_EVENTS_PER_PRIORITY).1 with _ | eh <;>
    rcases hn : (s.normal_events.pop MAX_EVENTS_PER_PRIORITY).1 with _ | en <;>
    rcases hl : (s.low_events.pop MAX_EVENTS_PER_PRIORITY).1 with _ | el <;>
    simp [hc, hh, hn, hl]

theorem find_idx_decomp {α : Type} (p : α → Bool) :
    ∀ (l : List α) (a : α), l.find? p = some a →
      ∃ n : Nat, ∃ hn : n < l.length, l.get ⟨n, hn⟩ = a ∧ p a = true ∧
        ∀ m, ∀ hm : m < l.length, m < n → p (l.get ⟨m, hm⟩) = false := by
  intro l
  induction l with
  | nil => intro a h; simp [List.find?] at h
  | cons x xs ih =>
    intro a h
    by_cases hx : p x
    · rw [List.find?_cons_of_pos _ hx] at h
      cases h
      exact ⟨0, by simp, rfl, hx, fun m hm hlt => absurd hlt (by omega)⟩
    · rw [List.find?_cons_of_neg _ hx] at h
      obtain ⟨n, hn, hget, hpa, hmin⟩ := ih a h
      refine ⟨n + 1, by simpa using Nat.succ_lt_succ hn, hget, hpa, ?_⟩
      intro m hm hlt
      match m with
      | 0 =>
        simp only [List.get]
        revert hx
        cases p x <;> simp
      | m + 1 =>
        exact hmin m (by simpa using hm) (by omega)

theorem finRange_find?_eq_some {n : Nat} (p : Fin n → Bool) (i : Fin n)
    (hp : p i = true) (hmin : ∀ j : Fin n, j < i → p j = false) :
    (List.finRange n).find? p = some i := by
  cases hf : (List.finRange n).find? p with
  | none =>
    rw [List.find?_eq_none] at hf
    exact absurd hp (by simpa using hf i (List.mem_finRange i))
  | some a =>
    obtain ⟨n0, hn0, hget, hpa, hm⟩ := find_idx_decomp p (List.finRange n) a hf
    have hlen : (List.finRange n).length = n := List.length_finRange n
    have hgeta : a = ⟨n0, by omega⟩ := by
      rw [← hget]
      apply Fin.ext
      simp [List.get_eq_getElem, List.getElem_finRange, Fin.cast]
    rcases Nat.lt_trichotomy i.val n0 with hlt | heq | hgt
    · have := hm i.val (by omega) hlt
      rw [show (List.finRange n).get ⟨i.val, by omega⟩ = i from by
        apply Fin.ext
        simp [List.get_eq_getElem, List.getElem_finRange, Fin.cast]] at this
      rw [hp] at this
      cases this
    · congr 1
      rw [hgeta]
      exact Fin.ext heq.symm
    · have hplt : a < i := by rw [hgeta]; exact Fin.mk_lt_of_lt_val hgt
      rw [hmin a hplt] at hpa
      cases hpa

theorem AsyncScheduler.isWaiterSlot_iff (s : AsyncScheduler) (event_id : Nat)
    (i : Fin MAX_TASKS) :
    s.isWaiterSlot event_id i = true ↔
      ∃ t, s.tasks i = some t ∧ t.state = .WaitingForEvent event_id := by
  rw [isWaiterSlot]
  cases hti : s.tasks i with
  | none => simp [slotWaits]
  | some t =>
    rw [slotWaits]
    cases hts : t.state with
    | WaitingForEvent w =>
      rw [waitingBool]
      constructor
      · intro h
        refine ⟨t, rfl, ?_⟩
        rw [hts]
        congr 1
        exact beq_iff_eq.mp h
      · rintro ⟨u, hu, hwu⟩
        cases hu
        rw [hts] at hwu
        injection hwu with hww
        subst hww
        exact beq_iff_eq.mpr rfl
    | Ready =>
      constructor
      · intro h; simp [waitingBool] at h
      · rintro ⟨u, hu, hwu⟩; cases hu; rw [hts] at hwu; cases hwu
    | Running =>
      constructor
      · intro h; simp [waitingBool] at h
      · rintro ⟨u, hu, hwu⟩; cases hu; rw [hts] at hwu; cases hwu
    | Sleeping w =>
      constructor
      · intro h; simp [waitingBool] at h
      · rintro ⟨u, hu, hwu⟩; cases hu; rw [hts] at hwu; cases hwu
    | Completed =>
      constructor
      · intro h; simp [waitingBool] at h
      · rintro ⟨u, hu, hwu⟩; cases hu; rw [hts] at hwu; cases hwu

theorem AsyncScheduler.getTask_eq (s : AsyncScheduler) (i : Nat)
    (h : i < MAX_TASKS) : s.getTask i = s.tasks ⟨i, h⟩ := by
  rw [getTask, dif_pos h]

theorem AsyncScheduler.getTask_some_lt (s : AsyncScheduler) (i : Nat)
    (t : Task) (h : s.getTask i = some t) : i < MAX_TASKS := by
  by_contra hge
  rw [getTask, dif_neg hge] at h
  cases h

theorem AsyncScheduler.setTask_frame (s : AsyncScheduler) (i : Nat)
    (v : Option Task) :
    (s.setTask i v).current_task = s.current_task ∧
      (s.setTask i v).next_task = s.next_task ∧
      (s.setTask i v).needs_reschedule = s.needs_reschedule ∧
      (s.setTask i v).critical_events = s.critical_events ∧
      (s.setTask i v).high_events = s.high_events ∧
      (s.setTask i v).normal_events = s.normal_events ∧
      (s.setTask i v).low_events = s.low_events ∧
      (s.setTask i v).active_tasks = s.active_tasks ∧
      (s.setTask i v).event_counter = s.event_counter ∧
      (s.setTask i v).timer_base = s.timer_base := by
  rw [setTask]
  split <;> exact ⟨rfl, rfl, rfl, rfl, rfl, rfl, rfl, rfl, rfl, rfl⟩

theorem AsyncScheduler.setTask_tasks (s : AsyncScheduler) (i : Nat)
    (v : Option Task) (h : i < MAX_TASKS) (j : Fin MAX_TASKS) :
    (s.setTask i v).tasks j = if j = ⟨i, h⟩ then v else s.tasks j := by
  rw [setTask, dif_pos h]

theorem AsyncScheduler.setQueue_frame (s : AsyncScheduler) (p : EventPriority)
    (q : LockFreeEventQueue) :
    (s.setQueue p q).tasks = s.tasks ∧
      (s.setQueue p q).current_task = s.current_task ∧
      (s.setQueue p q).next_task = s.next_task ∧
      (s.setQueue p q).needs_reschedule = s.needs_reschedule ∧
      (s.setQueue p q).timer_base = s.timer_base := by
  cases p <;> exact ⟨rfl, rfl, rfl, rfl, rfl⟩

theorem AsyncScheduler.findWaiter_congr (s s' : AsyncScheduler)
    (h : s.tasks = s'.tasks) (event_id : Nat) :
    s.findWaiter event_id = s'.findWaiter event_id := by
  rw [findWaiter, findWaiter]
  congr 1
  funext i
  rw [isWaiterSlot, isWaiterSlot, h]

theorem AsyncScheduler.findWaiter_some (s : AsyncScheduler) (event_id : Nat)
    (i : Fin MAX_TASKS) (h : s.findWaiter event_id = some i) :
    (∃ t, s.tasks i = some t ∧ t.state = .WaitingForEvent event_id) ∧
      ∀ j : Fin MAX_TASKS, j < i → ∀ u, s.tasks j = some u →
        u.state ≠ .WaitingForEvent event_id := by
  rw [findWaiter] at h
  obtain ⟨n0, hn0, hget, hpa, hm⟩ :=
    find_idx_decomp (s.isWaiterSlot event_id) (List.finRange MAX_TASKS) i h
  have hlen : (List.finRange MAX_TASKS).length = MAX_TASKS :=
    List.length_finRange MAX_TASKS
  have hival : i.val = n0 := by
    rw [← hget]
    simp [List.get_eq_getElem, List.getElem_finRange, Fin.cast]
  refine ⟨(s.isWaiterSlot_iff event_id i).mp hpa, ?_⟩
  intro j hj u hju hwu
  have hjn : j.val < n0 := by omega
  have hfalse := hm j.val (by omega) hjn
  rw [show (List.finRange MAX_TASKS).get ⟨j.val, by omega⟩ = j from by
    apply Fin.ext
    simp [List.get_eq_getElem, List.getElem_finRange, Fin.cast]] at hfalse
  have : s.isWaiterSlot event_id j = true :=
    (s.isWaiterSlot_iff event_id j).mpr ⟨u, hju, hwu⟩
  rw [this] at hfalse
  cases hfalse

theorem AsyncScheduler.findWaiter_none (s : AsyncScheduler) (event_id : Nat)
    (h : s.findWaiter event_id = none) :
    ∀ j : Fin MAX_TASKS, ∀ u, s.tasks j = some u →
      u.state ≠ .WaitingForEvent event_id := by
  rw [findWaiter, List.find?_eq_none] at h
  intro j u hju hwu
  have : s.isWaiterSlot event_id j = true :=
    (s.isWaiterSlot_iff event_id j).mpr ⟨u, hju, hwu⟩
  exact absurd this (by simpa using h j (List.mem_finRange j))

theorem AsyncScheduler.findWaiter_first (s : AsyncScheduler) (event_id : Nat)
    (i : Fin MAX_TASKS) (t : Task) (hti : s.tasks i = some t)
    (hw : t.state = .WaitingForEvent event_id)
    (hmin : ∀ j : Fin MAX_TASKS, j < i → ∀ u, s.tasks j = some u →
      u.state ≠ .WaitingForEvent event_id) :
    s.findWaiter event_id = some i := by
  rw [findWaiter]
  apply finRange_find?_eq_some
  · exact (s.isWaiterSlot_iff event_id i).mpr ⟨t, hti, hw⟩
  · intro j hj
    cases hfj : s.isWaiterSlot event_id j with
    | false => rfl
    | true =>
      obtain ⟨u, hju, hwu⟩ := (s.isWaiterSlot_iff event_id j).mp hfj
      exact absurd hwu (hmin j hj u hju)

theorem AsyncScheduler.wake_no_waiter (s : AsyncScheduler) (event_id : Nat)
    (h : s.findWaiter event_id = none) :
    s.wake_waiting_tasks event_id = s := by
  rw [wake_waiting_tasks, h]

theorem AsyncScheduler.wakeStage_tasks_self (s : AsyncScheduler)
    (i : Fin MAX_TASKS) (t : Task) :
    (s.wakeStage i t).tasks i =
      some { t with state := .Ready, waiting_event := none } := by
  simp [wakeStage]

theorem AsyncScheduler.wakeStage_tasks_ne (s : AsyncScheduler)
    (i : Fin MAX_TASKS) (t : Task) (j : Fin MAX_TASKS) (hj : j ≠ i) :
    (s.wakeStage i t).tasks j = s.tasks j := by
  simp [wakeStage, if_neg hj]

theorem AsyncScheduler.wakeStage_frame (s : AsyncScheduler)
    (i : Fin MAX_TASKS) (t : Task) :
    (s.wakeStage i t).next_task = some i.val ∧
      (s.wakeStage i t).needs_reschedule = true ∧
      (s.wakeStage i t).current_task = s.current_task ∧
      (s.wakeStage i t).critical_events = s.critical_events ∧
      (s.wakeStage i t).high_events = s.high_events ∧
      (s.wakeStage i t).normal_events = s.normal_events ∧
      (s.wakeStage i t).low_events = s.low_events ∧
      (s.wakeStage i t).event_counter = s.event_counter ∧
      (s.wakeStage i t).timer_base = s.timer_base :=
  ⟨rfl, rfl, rfl, rfl, rfl, rfl, rfl, rfl, rfl⟩

theorem AsyncScheduler.wake_some_spec (s : AsyncScheduler) (event_id : Nat)
    (i : Fin MAX_TASKS) (t : Task)
    (hfw : s.findWaiter event_id = some i) (hti : s.tasks i = some t) :
    (s.wake_waiting_tasks event_id).tasks i =
        some { t with state := .Ready, waiting_event := none } ∧
      (s.wake_waiting_tasks event_id).next_task = some i.val ∧
      (s.wake_waiting_tasks event_id).needs_reschedule = true ∧
      (s.wake_waiting_tasks event_id).current_task = s.current_task ∧
      ∀ j : Fin MAX_TASKS, j ≠ i →
        (s.wake_waiting_tasks event_id).tasks j = s.tasks j ∨
          ∃ dt, s.tasks j = some dt ∧ dt.state = .Running ∧
            s.next_task = some j.val ∧
            (s.wake_waiting_tasks event_id).tasks j =
              some { dt with state := .Ready } := by
  simp only [wake_waiting_tasks, hfw, hti]
  cases hnt : s.next_task with
  | none =>
    refine ⟨s.wakeStage_tasks_self i t, (s.wakeStage_frame i t).1,
      (s.wakeStage_frame i t).2.1, (s.wakeStage_frame i t).2.2.1, ?_⟩
    intro j hj
    exact Or.inl (s.wakeStage_tasks_ne i t j hj)
  | some d =>
    by_cases hd8 : d < MAX_TASKS
    · have hgt0 : (s.wakeStage i t).getTask d = (s.wakeStage i t).tasks ⟨d, hd8⟩ :=
        AsyncScheduler.getTask_eq _ d hd8
      by_cases hdi : (⟨d, hd8⟩ : Fin MAX_TASKS) = i
      · have hgt : (s.wakeStage i t).getTask d =
            some { t with state := .Ready, waiting_event := none } := by
          rw [hgt0, hdi]
          exact s.wakeStage_tasks_self i t
        simp only [hgt]
        rw [if_neg (by simp)]
        refine ⟨s.wakeStage_tasks_self i t, (s.wakeStage_frame i t).1,
          (s.wakeStage_frame i t).2.1, (s.wakeStage_frame i t).2.2.1, ?_⟩
        intro j hj
        exact Or.inl (s.wakeStage_tasks_ne i t j hj)
      · have hgt : (s.wakeStage i t).getTask d = s.tasks ⟨d, hd8⟩ := by
          rw [hgt0]
          exact s.wakeStage_tasks_ne i t ⟨d, hd8⟩ hdi
        simp only [hgt]
        cases hdt : s.tasks ⟨d, hd8⟩ with
        | none =>
          refine ⟨s.wakeStage_tasks_self i t, (s.wakeStage_frame i t).1,
            (s.wakeStage_frame i t).2.1, (s.wakeStage_frame i t).2.2.1, ?_⟩
          intro j hj
          exact Or.inl (s.wakeStage_tasks_ne i t j hj)
        | some dt =>
          by_cases hrun : dt.state = TaskState.Running
          · simp only [if_pos hrun]
            have hsetf := (s.wakeStage i t).setTask_frame d
              (some { dt with state := .Ready })
            refine ⟨?_, ?_, ?_, ?_, ?_⟩
            · rw [(s.wakeStage i t).setTask_tasks d
                (some { dt with state := .Ready }) hd8 i, if_neg (Ne.symm hdi)]
              exact s.wakeStage_tasks_self i t
            · rw [hsetf.2.1]
              exact (s.wakeStage_frame i t).1
            · rw [hsetf.2.2.1]
              exact (s.wakeStage_frame i t).2.1
            · rw [hsetf.1]
              exact (s.wakeStage_frame i t).2.2.1
            · intro j hj
              by_cases hjd : j = (⟨d, hd8⟩ : Fin MAX_TASKS)
              · right
                refine ⟨dt, by subst hjd; exact hdt, hrun,
                  by subst hjd; simp [hnt], ?_⟩
                rw [(s.wakeStage i t).setTask_tasks d
                  (some { dt with state := .Ready }) hd8 j, if_pos hjd]
              · left
                rw [(s.wakeStage i t).setTask_tasks d
                  (some { dt with state := .Ready }) hd8 j, if_neg hjd]
                exact s.wakeStage_tasks_ne i t j hj
          · simp only [if_neg hrun]
            refine ⟨s.wakeStage_tasks_self i t, (s.wakeStage_frame i t).1,
              (s.wakeStage_frame i t).2.1, (s.wakeStage_frame i t).2.2.1, ?_⟩
            intro j hj
            exact Or.inl (s.wakeStage_tasks_ne i t j hj)
    · have hgt : (s.wakeStage i t).getTask d = none := by
        rw [AsyncScheduler.getTask, dif_neg hd8]
      simp only [hgt]
      refine ⟨s.wakeStage_tasks_self i t, (s.wakeStage_frame i t).1,
        (s.wakeStage_frame i t).2.1, (s.wakeStage_frame i t).2.2.1, ?_⟩
      intro j hj
      exact Or.inl (s.wakeStage_tasks_ne i t j hj)

theorem AsyncScheduler.postMid_frame (s : AsyncScheduler) (e : Event) :
    (s.postMid e).tasks = s.tasks ∧
      (s.postMid e).current_task = s.current_task ∧
      (s.postMid e).next_task = s.next_task ∧
      (s.postMid e).needs_reschedule = s.needs_reschedule ∧
      (s.postMid e).timer_base = s.timer_base := by
  rw [postMid]
  cases e.priority <;> exact ⟨rfl, rfl, rfl, rfl, rfl⟩

theorem AsyncScheduler.post_event_ok (s : AsyncScheduler) (e : Event)
    (hroom : (s.getQueue e.priority).tail - (s.getQueue e.priority).head <
      MAX_EVENTS_PER_PRIORITY) :
    s.post_event e = ((s.postMid e).wake_waiting_tasks e.id, true) := by
  have h2 : ((s.getQueue e.priority).push MAX_EVENTS_PER_PRIORITY e).2 =
      .ok () := by
    rw [LockFreeEventQueue.push, if_neg (by omega)]
  rw [post_event, h2]

theorem AsyncScheduler.process_events_frame (s : AsyncScheduler) :
    (s.process_events).1.tasks = s.tasks ∧
      (s.process_events).1.current_task = s.current_task ∧
      (s.process_events).1.next_task = s.next_task ∧
      (s.process_events).1.needs_reschedule = s.needs_reschedule ∧
      (s.process_events).1.active_tasks = s.active_tasks ∧
      (s.process_events).1.timer_base = s.timer_base := by
  unfold AsyncScheduler.process_events AsyncScheduler.handle_event
  rcases hc : (s.critical_events.pop MAX_EVENTS_PER_PRIORITY).1 with _ | ec <;>
    rcases hh : (s.high_events.pop MAX_EVENTS_PER_PRIORITY).1 with _ | eh <;>
    rcases hn : (s.normal_events.pop MAX_EVENTS_PER_PRIORITY).1 with _ | en <;>
    rcases hl : (s.low_events.pop MAX_EVENTS_PER_PRIORITY).1 with _ | el <;>
    simp [hc, hh, hn, hl]

/-- C2: posting one event (with room in its ring) whose id is awaited by
`k ≥ 1` tasks wakes exactly the lowest-slot-index waiter — it becomes Ready
with `waiting_event` cleared — while every other task that was in state
`WaitingForEvent` of the same id is left exactly as it was. -/
theorem C2_wake_exactly_first_waiter (s : AsyncScheduler) (e : Event)
    (i : Fin MAX_TASKS) (t : Task)
    (hroom : (s.getQueue e.priority).tail - (s.getQueue e.priority).head <
      MAX_EVENTS_PER_PRIORITY)
    (hti : s.tasks i = some t) (hw : t.state = .WaitingForEvent e.id)
    (hmin : ∀ j : Fin MAX_TASKS, j < i → ∀ u, s.tasks j = some u →
      u.state ≠ .WaitingForEvent e.id) :
    (s.post_event e).2 = true ∧
      (s.post_event e).1.tasks i =
        some { t with state := .Ready, waiting_event := none } ∧
      ∀ j : Fin MAX_TASKS, j ≠ i → ∀ u, s.tasks j = some u →
        u.state = .WaitingForEvent e.id →
        (s.post_event e).1.tasks j = some u := by
  have hpost := s.post_event_ok e hroom
  have hmid := s.postMid_frame e
  have hfw : s.findWaiter e.id = some i :=
    s.findWaiter_first e.id i t hti hw hmin
  have hfw2 : (s.postMid e).findWaiter e.id = some i := by
    rw [AsyncScheduler.findWaiter_congr (s.postMid e) s hmid.1]
    exact hfw
  have hti2 : (s.postMid e).tasks i = some t := by
    rw [hmid.1]
    exact hti
  obtain ⟨w1, w2, w3, w4, w5⟩ :=
    (s.postMid e).wake_some_spec e.id i t hfw2 hti2
  rw [hpost]
  refine ⟨rfl, w1, ?_⟩
  intro j hj u hju hwu
  rcases w5 j hj with hsame | ⟨dt, hdt, hdtr, _, _⟩
  · rw [hsame, hmid.1]
    exact hju
  · rw [hmid.1, hju] at hdt
    injection hdt with hdu
    subst hdu
    rw [hwu] at hdtr
    cases hdtr

/-- The scheduler after spawning three Normal tasks and blocking each of them
on event id 42 (spec scenario S5). -/
def C2state : AsyncScheduler :=
  runOps [.spawn 0 .Normal, .spawn 1 .Normal, .spawn 2 .Normal, .sched,
    .block 42, .sched, .block 42, .sched, .block 42]

/-- Witness for C2: three waiters on id 42; the post wakes exactly slot 0. -/
theorem C2_witness :
    (C2state.getQueue EventPriority.Normal).tail -
        (C2state.getQueue EventPriority.Normal).head <
      MAX_EVENTS_PER_PRIORITY ∧
      C2state.tasks ⟨0, by decide⟩ =
        some ⟨0, .Normal, .WaitingForEvent 42, some 42⟩ ∧
      (C2state.post_event (Event.new 42 .Normal)).1.tasks ⟨0, by decide⟩ =
        some ⟨0, .Normal, .Ready, none⟩ ∧
      (C2state.post_event (Event.new 42 .Normal)).1.tasks ⟨1, by decide⟩ =
        some ⟨1, .Normal, .WaitingForEvent 42, some 42⟩ :=
  ⟨by decide, by decide,
    (C2_wake_exactly_first_waiter C2state (Event.new 42 .Normal)
      ⟨0, by decide⟩ ⟨0, .Normal, .WaitingForEvent 42, some 42⟩
      (by decide) (by decide) (by decide)
      (fun j hj => absurd hj (by exact Nat.not_lt_zero j.val))).2.1,
    (C2_wake_exactly_first_waiter C2state (Event.new 42 .Normal)
      ⟨0, by decide⟩ ⟨0, .Normal, .WaitingForEvent 42, some 42⟩
      (by decide) (by decide) (by decide)
      (fun j hj => absurd hj (by exact Nat.not_lt_zero j.val))).2.2
      ⟨1, by decide⟩ (by decide) ⟨1, .Normal, .WaitingForEvent 42, some 42⟩
      (by decide) (by decide)⟩

/-- The scheduler after spawning one Normal task, scheduling it, and blocking
it on event id 7 (spec scenario S1's set-up). -/
def C3state : AsyncScheduler :=
  runOps [.spawn 0 .Normal, .sched, .block 7]

/-- C3 as stated is false on the code: immediately after a successful
`post_event` of id 7 returns — before any call to `schedule` — the waiter is
already Ready, not still `WaitingForEvent(7)`; the wake happens inside
`post_event` (via `wake_waiting_tasks`), not during the dispatch pass. -/
theorem C3_counterexample :
    C3state.tasks ⟨0, by decide⟩ =
        some ⟨0, .Normal, .WaitingForEvent 7, some 7⟩ ∧
      (C3state.post_event (Event.new 7 .Normal)).2 = true ∧
      (C3state.post_event (Event.new 7 .Normal)).1.tasks ⟨0, by decide⟩ =
        some ⟨0, .Normal, .Ready, none⟩ := by
  decide

/-- C3 amended: a successful post itself wakes the first matching waiter —
immediately after `post_event` returns the waiter is Ready with its
`waiting_event` cleared — and the dispatch pass inside `next_to_run`
(`process_events` / `handle_event`) changes no task state at all. -/
theorem C3_post_wakes_immediately (s : AsyncScheduler) (e : Event)
    (i : Fin MAX_TASKS) (t : Task)
    (hroom : (s.getQueue e.priority).tail - (s.getQueue e.priority).head <
      MAX_EVENTS_PER_PRIORITY)
    (hti : s.tasks i = some t) (hw : t.state = .WaitingForEvent e.id)
    (hmin : ∀ j : Fin MAX_TASKS, j < i → ∀ u, s.tasks j = some u →
      u.state ≠ .WaitingForEvent e.id) :
    (s.post_event e).1.tasks i =
        some { t with state := .Ready, waiting_event := none } ∧
      (∀ s0 : AsyncScheduler, (s0.process_events).1.tasks = s0.tasks) ∧
      ∀ s0 : AsyncScheduler, ∀ e0 : Event, s0.handle_event e0 = s0 := by
  have hpost := s.post_event_ok e hroom
  have hmid := s.postMid_frame e
  have hfw : s.findWaiter e.id = some i :=
    s.findWaiter_first e.id i t hti hw hmin
  have hfw2 : (s.postMid e).findWaiter e.id = some i := by
    rw [AsyncScheduler.findWaiter_congr (s.postMid e) s hmid.1]
    exact hfw
  have hti2 : (s.postMid e).tasks i = some t := by
    rw [hmid.1]
    exact hti
  refine ⟨?_, fun s0 => (s0.process_events_frame).1, fun _ _ => rfl⟩
  rw [hpost]
  exact ((s.postMid e).wake_some_spec e.id i t hfw2 hti2).1

/-- Witness for C3's amended statement at the concrete S1 scenario. -/
theorem C3_witness :
    (C3state.getQueue EventPriority.Normal).tail -
        (C3state.getQueue EventPriority.Normal).head <
      MAX_EVENTS_PER_PRIORITY ∧
      (C3state.post_event (Event.new 7 .Normal)).1.tasks ⟨0, by decide⟩ =
        some ⟨0, .Normal, .Ready, none⟩ :=
  ⟨by decide,
    (C3_post_wakes_immediately C3state (Event.new 7 .Normal) ⟨0, by decide⟩
      ⟨0, .Normal, .WaitingForEvent 7, some 7⟩
      (by decide) (by decide) (by decide)
      (fun j hj => absurd hj (by exact Nat.not_lt_zero j.val))).1⟩

/-- C7 as stated is false on the code: posting into the empty initial
scheduler succeeds, yet `needs_reschedule` stays false, because
`post_event` only sets the flag inside `wake_waiting_tasks` when a waiter
matches the event id. -/
theorem C7_counterexample :
    (AsyncScheduler.init.post_event (Event.new 1 .Normal)).2 = true ∧
      (AsyncScheduler.init.post_event
        (Event.new 1 .Normal)).1.needs_reschedule = false := by
  decide

/-- C7 amended: a successful post sets `needs_reschedule` exactly when some
task is waiting for the event's id; when no task waits, the flag is left
unchanged. -/
theorem C7_needs_reschedule_iff_waiter (s : AsyncScheduler) (e : Event)
    (hroom : (s.getQueue e.priority).tail - (s.getQueue e.priority).head <
      MAX_EVENTS_PER_PRIORITY) :
    (s.post_event e).2 = true ∧
      ((∃ i : Fin MAX_TASKS, ∃ t, s.tasks i = some t ∧
          t.state = .WaitingForEvent e.id) →
        (s.post_event e).1.needs_reschedule = true) ∧
      ((∀ i : Fin MAX_TASKS, ∀ t, s.tasks i = some t →
          t.state ≠ .WaitingForEvent e.id) →
        (s.post_event e).1.needs_reschedule = s.needs_reschedule) := by
  have hpost := s.post_event_ok e hroom
  have hmid := s.postMid_frame e
  rw [hpost]
  refine ⟨rfl, ?_, ?_⟩
  · rintro ⟨i, t, hti, hw⟩
    cases hfw : (s.postMid e).findWaiter e.id with
    | none =>
      have hn := (s.postMid e).findWaiter_none e.id hfw i t
        (by rw [hmid.1]; exact hti)
      exact absurd hw hn
    | some i0 =>
      obtain ⟨⟨t0, ht0, hw0⟩, _⟩ := (s.postMid e).findWaiter_some e.id i0 hfw
      exact ((s.postMid e).wake_some_spec e.id i0 t0 hfw ht0).2.2.1
  · intro hno
    cases hfw : (s.postMid e).findWaiter e.id with
    | none =>
      rw [(s.postMid e).wake_no_waiter e.id hfw]
      exact hmid.2.2.2.1
    | some i0 =>
      obtain ⟨⟨t0, ht0, hw0⟩, _⟩ := (s.postMid e).findWaiter_some e.id i0 hfw
      rw [hmid.1] at ht0
      exact absurd hw0 (hno i0 t0 ht0)

/-- The scheduler after spawning one Normal task, scheduling it, and blocking
it on event id 9. -/
def C7state : AsyncScheduler :=
  runOps [.spawn 0 .Normal, .sched, .block 9]

/-- Witness for C7's amended statement: with a waiter on id 9 present, a
successful post of id 9 sets `needs_reschedule`. -/
theorem C7_witness :
    (C7state.getQueue EventPriority.Normal).tail -
        (C7state.getQueue EventPriority.Normal).head <
      MAX_EVENTS_PER_PRIORITY ∧
      (C7state.post_event (Event.new 9 .Normal)).1.needs_reschedule = true :=
  ⟨by decide,
    (C7_needs_reschedule_iff_waiter C7state (Event.new 9 .Normal)
      (by decide)).2.1
      ⟨⟨0, by decide⟩, ⟨0, .Normal, .WaitingForEvent 9, some 9⟩,
        by decide, by decide⟩⟩

/-- The effect of `update_timer`'s wake-up check on one slot's content: a
Sleeping task whose deadline is `≤ t` becomes Ready; everything else is left
alone. -/
def wokenSlot (t : Nat) : Option Task → Option Task
  | some tk =>
    match tk.state with
    | .Sleeping w => if t ≥ w then some { tk with state := .Ready } else some tk
    | _ => some tk
  | none => none

theorem AsyncScheduler.wakeSleepStep_spec (t : Nat) (s : AsyncScheduler)
    (i : Fin MAX_TASKS) :
    (s.wakeSleepStep t i).current_task = s.current_task ∧
      (s.wakeSleepStep t i).next_task = s.next_task ∧
      (s.wakeSleepStep t i).critical_events = s.critical_events ∧
      (s.wakeSleepStep t i).high_events = s.high_events ∧
      (s.wakeSleepStep t i).normal_events = s.normal_events ∧
      (s.wakeSleepStep t i).low_events = s.low_events ∧
      (s.wakeSleepStep t i).active_tasks = s.active_tasks ∧
      (s.wakeSleepStep t i).event_counter = s.event_counter ∧
      (s.wakeSleepStep t i).timer_base = s.timer_base ∧
      (s.wakeSleepStep t i).tasks i = wokenSlot t (s.tasks i) ∧
      ∀ j : Fin MAX_TASKS, j ≠ i →
        (s.wakeSleepStep t i).tasks j = s.tasks j := by
  cases hti : s.tasks i with
  | none =>
    have hstep : s.wakeSleepStep t i = s := by
      simp only [wakeSleepStep, hti]
    rw [hstep, hti]
    exact ⟨rfl, rfl, rfl, rfl, rfl, rfl, rfl, rfl, rfl, rfl, fun j _ => rfl⟩
  | some tk =>
    cases hts : tk.state with
    | Sleeping w =>
      by_cases hge : t ≥ w
      · have hstep : s.wakeSleepStep t i =
            { s with
              tasks := fun j =>
                if j = i then some { tk with state := .Ready } else s.tasks j,
              needs_reschedule := true } := by
          simp only [wakeSleepStep, hti, hts, if_pos hge]
        rw [hstep]
        refine ⟨rfl, rfl, rfl, rfl, rfl, rfl, rfl, rfl, rfl, ?_, ?_⟩
        · simp [wokenSlot, hts, if_pos hge]
        · intro j hj
          simp [if_neg hj]
      · have hstep : s.wakeSleepStep t i = s := by
          simp only [wakeSleepStep, hti, hts, if_neg hge]
        rw [hstep, hti]
        refine ⟨rfl, rfl, rfl, rfl, rfl, rfl, rfl, rfl, rfl, ?_,
          fun j _ => rfl⟩
        simp [wokenSlot, hts, if_neg hge]
    | Ready =>
      have hstep : s.wakeSleepStep t i = s := by
        simp only [wakeSleepStep, hti, hts]
      rw [hstep, hti]
      exact ⟨rfl, rfl, rfl, rfl, rfl, rfl, rfl, rfl, rfl,
        by simp [wokenSlot, hts], fun j _ => rfl⟩
    | Running =>
      have hstep : s.wakeSleepStep t i = s := by
        simp only [wakeSleepStep, hti, hts]
      rw [hstep, hti]
      exact ⟨rfl, rfl, rfl, rfl, rfl, rfl, rfl, rfl, rfl,
        by simp [wokenSlot, hts], fun j _ => rfl⟩
    | WaitingForEvent w =>
      have hstep : s.wakeSleepStep t i = s := by
        simp only [wakeSleepStep, hti, hts]
      rw [hstep, hti]
      exact ⟨rfl, rfl, rfl, rfl, rfl, rfl, rfl, rfl, rfl,
        by simp [wokenSlot, hts], fun j _ => rfl⟩
    | Completed =>
      have hstep : s.wakeSleepStep t i = s := by
        simp only [wakeSleepStep, hti, hts]
      rw [hstep, hti]
      exact ⟨rfl, rfl, rfl, rfl, rfl, rfl, rfl, rfl, rfl,
        by simp [wokenSlot, hts], fun j _ => rfl⟩

theorem AsyncScheduler.wakeFold_spec (t : Nat) :
    ∀ (l : List (Fin MAX_TASKS)), l.Nodup → ∀ s0 : AsyncScheduler,
      (l.foldl (AsyncScheduler.wakeSleepStep t) s0).current_task =
          s0.current_task ∧
        (l.foldl (AsyncScheduler.wakeSleepStep t) s0).next_task =
          s0.next_task ∧
        (l.foldl (AsyncScheduler.wakeSleepStep t) s0).critical_events =
          s0.critical_events ∧
        (l.foldl (AsyncScheduler.wakeSleepStep t) s0).high_events =
          s0.high_events ∧
        (l.foldl (AsyncScheduler.wakeSleepStep t) s0).normal_events =
          s0.normal_events ∧
        (l.foldl (AsyncScheduler.wakeSleepStep t) s0).low_events =
          s0.low_events ∧
        (l.foldl (AsyncScheduler.wakeSleepStep t) s0).active_tasks =
          s0.active_tasks ∧
        (l.foldl (AsyncScheduler.wakeSleepStep t) s0).event_counter =
          s0.event_counter ∧
        (l.foldl (AsyncScheduler.wakeSleepStep t) s0).timer_base =
          s0.timer_base ∧
        (∀ i ∈ l, (l.foldl (AsyncScheduler.wakeSleepStep t) s0).tasks i =
          wokenSlot t (s0.tasks i)) ∧
        ∀ i : Fin MAX_TASKS, i ∉ l →
          (l.foldl (AsyncScheduler.wakeSleepStep t) s0).tasks i =
            s0.tasks i := by
  intro l
  induction l with
  | nil =>
    intro _ s0
    exact ⟨rfl, rfl, rfl, rfl, rfl, rfl, rfl, rfl, rfl,
      fun i hi => absurd hi (List.not_mem_nil i), fun i _ => rfl⟩
  | cons x xs ih =>
    intro hnd s0
    obtain ⟨hx, hnd2⟩ := List.nodup_cons.mp hnd
    obtain ⟨f1, f2, f3, f4, f5, f6, f7, f8, f9, hstep, hothers⟩ :=
      AsyncScheduler.wakeSleepStep_spec t s0 x
    obtain ⟨g1, g2, g3, g4, g5, g6, g7, g8, g9, hin, hout⟩ :=
      ih hnd2 (s0.wakeSleepStep t x)
    rw [List.foldl_cons]
    refine ⟨by rw [g1, f1], by rw [g2, f2], by rw [g3, f3], by rw [g4, f4],
      by rw [g5, f5], by rw [g6, f6], by rw [g7, f7], by rw [g8, f8],
      by rw [g9, f9], ?_, ?_⟩
    · intro i hi
      rcases List.mem_cons.mp hi with heq | hmem
      · subst heq
        rw [hout i hx, hstep]
      · rw [hin i hmem, hothers i (fun hcontra => hx (hcontra ▸ hmem))]
    · intro i hi
      have hix : i ≠ x := fun hcontra => hi (hcontra ▸ List.mem_cons_self x xs)
      have hixs : i ∉ xs := fun hcontra => hi (List.mem_cons_of_mem x hcontra)
      rw [hout i hixs, hothers i hix]

theorem AsyncScheduler.update_timer_spec (s : AsyncScheduler) (t : Nat) :
    (s.update_timer t).current_task = s.current_task ∧
      (s.update_timer t).next_task = s.next_task ∧
      (s.update_timer t).critical_events = s.critical_events ∧
      (s.update_timer t).high_events = s.high_events ∧
      (s.update_timer t).normal_events = s.normal_events ∧
      (s.update_timer t).low_events = s.low_events ∧
      (s.update_timer t).active_tasks = s.active_tasks ∧
      (s.update_timer t).event_counter = s.event_counter ∧
      (s.update_timer t).timer_base = t ∧
      ∀ i : Fin MAX_TASKS, (s.update_timer t).tasks i =
        wokenSlot t (s.tasks i) := by
  obtain ⟨g1, g2, g3, g4, g5, g6, g7, g8, g9, hin, _⟩ :=
    AsyncScheduler.wakeFold_spec t (List.finRange MAX_TASKS)
      (List.nodup_finRange MAX_TASKS) { s with timer_base := t }
  rw [AsyncScheduler.update_timer]
  exact ⟨g1, g2, g3, g4, g5, g6, g7, g8, g9,
    fun i => hin i (List.mem_finRange i)⟩

/-- C9: `update_timer` (tick-advance) never touches the hot slot `next_task`
nor `current_task`, the event rings, or the counters; it stores the new time
in `timer_base` and transforms each task slot by exactly the Sleeping-and-
expired wake-up rule (`wokenSlot`) — so even a mass wake-up leaves the hot
slot as it was. -/
theorem C9_update_timer_frame (s : AsyncScheduler) (t : Nat) :
    (s.update_timer t).next_task = s.next_task ∧
      (s.update_timer t).current_task = s.current_task ∧
      (s.update_timer t).critical_events = s.critical_events ∧
      (s.update_timer t).high_events = s.high_events ∧
      (s.update_timer t).normal_events = s.normal_events ∧
      (s.update_timer t).low_events = s.low_events ∧
      (s.update_timer t).active_tasks = s.active_tasks ∧
      (s.update_timer t).event_counter = s.event_counter ∧
      (s.update_timer t).timer_base = t ∧
      ∀ i : Fin MAX_TASKS, (s.update_timer t).tasks i =
        wokenSlot t (s.tasks i) := by
  obtain ⟨g1, g2, g3, g4, g5, g6, g7, g8, g9, hw⟩ :=
    s.update_timer_spec t
  exact ⟨g2, g1, g3, g4, g5, g6, g7, g8, g9, hw⟩

/-- C10: the deadline stored by `sleep_current_task` is
`(timer_base + duration) mod 2^32` (u32 wrapping addition, widened to 64
bits), and a subsequent `update_timer t` marks the task Ready exactly when
`t ≥` that wrapped deadline, by plain unsigned comparison — in particular a
wrapped (overflowed) deadline is small, so any `t` at or above it wakes the
task immediately. -/
theorem C10_sleep_wrap_deadline (s : AsyncScheduler) (c : Nat) (t : Task)
    (d : Nat) (hc : s.current_task = some c) (ht : s.getTask c = some t) :
    (s.sleep_current_task d).getTask c =
        some { t with state := .Sleeping ((s.timer_base + d) % U32) } ∧
      (s.sleep_current_task d).current_task = none ∧
      (s.sleep_current_task d).needs_reschedule = true ∧
      ∀ t2 : Nat, ((s.sleep_current_task d).update_timer t2).getTask c =
        some { t with state :=
          if (s.timer_base + d) % U32 ≤ t2 then .Ready
          else .Sleeping ((s.timer_base + d) % U32) } := by
  have h8 : c < MAX_TASKS := s.getTask_some_lt c t ht
  have hsleep : s.sleep_current_task d =
      { s.setTask c
          (some { t with state := .Sleeping ((s.timer_base + d) % U32) }) with
        current_task := none, needs_reschedule := true } := by
    simp only [AsyncScheduler.sleep_current_task, hc, ht]
  have htasks : ∀ j : Fin MAX_TASKS, (s.sleep_current_task d).tasks j =
      if j = ⟨c, h8⟩ then
        some { t with state := .Sleeping ((s.timer_base + d) % U32) }
      else s.tasks j := by
    intro j
    rw [hsleep]
    exact s.setTask_tasks c _ h8 j
  refine ⟨?_, by rw [hsleep], by rw [hsleep], ?_⟩
  · rw [AsyncScheduler.getTask_eq _ c h8, htasks ⟨c, h8⟩, if_pos rfl]
  · intro t2
    obtain ⟨_, _, _, _, _, _, _, _, _, hw⟩ :=
      (s.sleep_current_task d).update_timer_spec t2
    rw [AsyncScheduler.getTask_eq _ c h8, hw ⟨c, h8⟩, htasks ⟨c, h8⟩,
      if_pos rfl]
    by_cases hexp : (s.timer_base + d) % U32 ≤ t2
    · rw [if_pos hexp]
      simp [wokenSlot, hexp]
    · rw [if_neg hexp]
      simp [wokenSlot, hexp]

/-- A scheduler whose timer sits one tick before the 32-bit wrap, with one
Running task. -/
def C10state : AsyncScheduler :=
  runOps [.tick (U32 - 1), .spawn 0 .Normal, .sched]

/-- Witness for C10 at the wrap-around: at tick `2^32 - 1`, `sleep(10)`
stores the wrapped deadline 9, and the very next `update_timer 9` already
wakes the task — before 10 ticks have elapsed. -/
theorem C10_witness :
    C10state.current_task = some 0 ∧
      C10state.getTask 0 = some ⟨0, .Normal, .Running, none⟩ ∧
      C10state.timer_base = U32 - 1 ∧
      (C10state.sleep_current_task 10).getTask 0 =
        some ⟨0, .Normal, .Sleeping 9, none⟩ ∧
      ((C10state.sleep_current_task 10).update_timer 9).getTask 0 =
        some ⟨0, .Normal, .Ready, none⟩ := by
  have h := C10_sleep_wrap_deadline C10state 0 ⟨0, .Normal, .Running, none⟩ 10
    (by decide) (by decide)
  have harith : (C10state.timer_base + 10) % U32 = 9 := by decide
  refine ⟨by decide, by decide, by decide, ?_, ?_⟩
  · have h1 := h.1
    rw [harith] at h1
    exact h1
  · have h4 := h.2.2.2 9
    rw [harith] at h4
    simpa using h4

theorem Task.is_ready_iff (t : Task) : t.is_ready = true ↔ t.state = .Ready := by
  rw [Task.is_ready]
  cases t.state <;> simp

/-- The scheduler's structural invariant: every Running task sits in the
slot named by `current_task`, the current slot (when set) holds a Running
task, and the hot slot (when set) holds a Ready task — spec invariants 1–3. -/
def Inv (s : AsyncScheduler) : Prop :=
  (∀ i : Fin MAX_TASKS, ∀ t, s.tasks i = some t → t.state = .Running →
      s.current_task = some i.val) ∧
    (∀ c, s.current_task = some c → ∃ h : c < MAX_TASKS, ∃ t,
      s.tasks ⟨c, h⟩ = some t ∧ t.state = .Running) ∧
    ∀ n, s.next_task = some n → ∃ h : n < MAX_TASKS, ∃ t,
      s.tasks ⟨n, h⟩ = some t ∧ t.state = .Ready

theorem Inv_init : Inv AsyncScheduler.init := by
  refine ⟨?_, ?_, ?_⟩
  · intro i t hti
    simp [AsyncScheduler.init] at hti
  · intro c hc
    simp [AsyncScheduler.init] at hc
  · intro n hn
    simp [AsyncScheduler.init] at hn

theorem Inv_congr (s s' : AsyncScheduler) (ht : s'.tasks = s.tasks)
    (hc : s'.current_task = s.current_task)
    (hn : s'.next_task = s.next_task) (hInv : Inv s) : Inv s' := by
  obtain ⟨h1, h2, h3⟩ := hInv
  refine ⟨?_, ?_, ?_⟩
  · intro i t hti hrun
    rw [hc]
    exact h1 i t (by rw [← ht]; exact hti) hrun
  · intro c hcc
    rw [hc] at hcc
    obtain ⟨h8, t, hct, hrt⟩ := h2 c hcc
    exact ⟨h8, t, by rw [ht]; exact hct, hrt⟩
  · intro n hnn
    rw [hn] at hnn
    obtain ⟨h8, t, hnt, hrt⟩ := h3 n hnn
    exact ⟨h8, t, by rw [ht]; exact hnt, hrt⟩

theorem Inv_clear_next (s : AsyncScheduler) (hInv : Inv s) :
    Inv { s with next_task := none } := by
  obtain ⟨h1, h2, h3⟩ := hInv
  exact ⟨h1, h2, fun n hn => by cases hn⟩

theorem Inv_spawn (s : AsyncScheduler) (t0 : Task)
    (hready : t0.state = .Ready) (hInv : Inv s) :
    Inv (s.spawn_task t0).1 := by
  obtain ⟨h1, h2, h3⟩ := hInv
  cases hf : s.findFreeSlot with
  | none =>
    simp only [AsyncScheduler.spawn_task, hf]
    exact ⟨h1, h2, h3⟩
  | some i =>
    have hfree : s.tasks i = none := by
      rw [AsyncScheduler.findFreeSlot] at hf
      have := List.find?_some hf
      exact Option.isNone_iff_eq_none.mp this
    have hr : (s.spawn_task t0).1 =
        { s with tasks := fun j => if j = i then some t0 else s.tasks j,
                 active_tasks := (s.active_tasks + 1) % U32,
                 needs_reschedule := true } := by
      simp only [AsyncScheduler.spawn_task, hf]
    have htasks : ∀ j : Fin MAX_TASKS, ((s.spawn_task t0).1).tasks j =
        if j = i then some t0 else s.tasks j := by
      intro j
      rw [hr]
    have hcur : ((s.spawn_task t0).1).current_task = s.current_task := by
      rw [hr]
    have hnext : ((s.spawn_task t0).1).next_task = s.next_task := by
      rw [hr]
    refine ⟨?_, ?_, ?_⟩
    · intro j u hju hrun
      rw [htasks j] at hju
      rw [hcur]
      by_cases hji : j = i
      · rw [if_pos hji] at hju
        injection hju with hu
        subst hu
        rw [hready] at hrun
        cases hrun
      · rw [if_neg hji] at hju
        exact h1 j u hju hrun
    · intro c hcc
      rw [hcur] at hcc
      obtain ⟨h8, u, hcu, hur⟩ := h2 c hcc
      have hne : (⟨c, h8⟩ : Fin MAX_TASKS) ≠ i := by
        intro hcontra
        rw [hcontra, hfree] at hcu
        cases hcu
      exact ⟨h8, u, by rw [htasks ⟨c, h8⟩, if_neg hne]; exact hcu, hur⟩
    · intro n hnn
      rw [hnext] at hnn
      obtain ⟨h8, u, hnu, hur⟩ := h3 n hnn
      have hne : (⟨n, h8⟩ : Fin MAX_TASKS) ≠ i := by
        intro hcontra
        rw [hcontra, hfree] at hnu
        cases hnu
      exact ⟨h8, u, by rw [htasks ⟨n, h8⟩, if_neg hne]; exact hnu, hur⟩

theorem Inv_wake (s : AsyncScheduler) (event_id : Nat) (hInv : Inv s) :
    Inv (s.wake_waiting_tasks event_id) := by
  obtain ⟨h1, h2, h3⟩ := hInv
  cases hfw : s.findWaiter event_id with
  | none =>
    rw [s.wake_no_waiter event_id hfw]
    exact ⟨h1, h2, h3⟩
  | some i =>
    obtain ⟨⟨t, hti, hw⟩, _⟩ := s.findWaiter_some event_id i hfw
    obtain ⟨w1, w2, w3, w4, w5⟩ := s.wake_some_spec event_id i t hfw hti
    refine ⟨?_, ?_, ?_⟩
    · intro j u hju hrun
      by_cases hji : j = i
      · subst hji
        rw [w1] at hju
        injection hju with hu
        subst hu
        cases hrun
      · rcases w5 j hji with hsame | ⟨dt, hdt, hdtrun, hnx, hrj⟩
        · rw [hsame] at hju
          rw [w4]
          exact h1 j u hju hrun
        · rw [hrj] at hju
          injection hju with hu
          subst hu
          cases hrun
    · intro c hcc
      rw [w4] at hcc
      obtain ⟨h8, u, hcu, hur⟩ := h2 c hcc
      have hne : (⟨c, h8⟩ : Fin MAX_TASKS) ≠ i := by
        intro hcontra
        rw [hcontra, hti] at hcu
        injection hcu with hu
        subst hu
        rw [hw] at hur
        cases hur
      rcases w5 ⟨c, h8⟩ hne with hsame | ⟨dt, hdt, hdtrun, hnx, hrj⟩
      · exact ⟨h8, u, by rw [hsame]; exact hcu, hur⟩
      · obtain ⟨h8n, v, hnv, hvr⟩ := h3 c hnx
        rw [show (⟨c, h8n⟩ : Fin MAX_TASKS) = ⟨c, h8⟩ from rfl, hcu] at hnv
        injection hnv with hv
        subst hv
        rw [hur] at hvr
        cases hvr
    · intro n hn
      rw [w2] at hn
      injection hn with hn2
      subst hn2
      refine ⟨i.isLt, { t with state := .Ready, waiting_event := none },
        ?_, rfl⟩
      rw [show (⟨i.val, i.isLt⟩ : Fin MAX_TASKS) = i from Fin.eta i i.isLt]
      exact w1

theorem Inv_post (s : AsyncScheduler) (e : Event) (hInv : Inv s) :
    Inv (s.post_event e).1 := by
  cases hp : ((s.getQueue e.priority).push MAX_EVENTS_PER_PRIORITY e).2 with
  | error e2 =>
    simp only [AsyncScheduler.post_event, hp]
    exact hInv
  | ok u =>
    simp only [AsyncScheduler.post_event, hp]
    have hmid := s.postMid_frame e
    exact Inv_wake (s.postMid e) e.id
      (Inv_congr s (s.postMid e) hmid.1 hmid.2.1 hmid.2.2.1 hInv)

theorem Inv_block (s : AsyncScheduler) (event_id : Nat) (hInv : Inv s) :
    Inv (s.block_current_task event_id) := by
  obtain ⟨h1, h2, h3⟩ := hInv
  cases hc : s.current_task with
  | none =>
    simp only [AsyncScheduler.block_current_task, hc]
    exact ⟨h1, h2, h3⟩
  | some c =>
    obtain ⟨h8, t, hct, hrt⟩ := h2 c hc
    have hg : s.getTask c = some t := by
      rw [AsyncScheduler.getTask_eq _ c h8]
      exact hct
    have hr : s.block_current_task event_id =
        { s.setTask c
            (some
              { t with
                state := .WaitingForEvent event_id,
                waiting_event := some event_id }) with
          current_task := none, needs_reschedule := true } := by
      simp only [AsyncScheduler.block_current_task, hc, hg]
    have htasks : ∀ j : Fin MAX_TASKS,
        (s.block_current_task event_id).tasks j =
          if j = ⟨c, h8⟩ then
            some
              { t with
                state := .WaitingForEvent event_id,
                waiting_event := some event_id }
          else s.tasks j := by
      intro j
      rw [hr]
      exact s.setTask_tasks c _ h8 j
    have hcur : (s.block_current_task event_id).current_task = none := by
      rw [hr]
    have hnext : (s.block_current_task event_id).next_task = s.next_task := by
      rw [hr]
      exact (s.setTask_frame c _).2.1
    refine ⟨?_, ?_, ?_⟩
    · intro j u hju hrun
      rw [htasks j] at hju
      by_cases hji : j = ⟨c, h8⟩
      · rw [if_pos hji] at hju
        injection hju with hu
        subst hu
        cases hrun
      · rw [if_neg hji] at hju
        have hcj := h1 j u hju hrun
        rw [hc] at hcj
        injection hcj with hv
        exact absurd (Fin.ext hv.symm) hji
    · intro c2 hc2
      rw [hcur] at hc2
      cases hc2
    · intro n hn
      rw [hnext] at hn
      obtain ⟨h8n, u, hnu, hur⟩ := h3 n hn
      refine ⟨h8n, u, ?_, hur⟩
      rw [htasks ⟨n, h8n⟩]
      have hne : (⟨n, h8n⟩ : Fin MAX_TASKS) ≠ ⟨c, h8⟩ := by
        intro hcontra
        rw [hcontra, hct] at hnu
        injection hnu with hu
        subst hu
        rw [hur] at hrt
        cases hrt
      rw [if_neg hne]
      exact hnu

theorem Inv_sleep (s : AsyncScheduler) (d : Nat) (hInv : Inv s) :
    Inv (s.sleep_current_task d) := by
  obtain ⟨h1, h2, h3⟩ := hInv
  cases hc : s.current_task with
  | none =>
    simp only [AsyncScheduler.sleep_current_task, hc]
    exact ⟨h1, h2, h3⟩
  | some c =>
    obtain ⟨h8, t, hct, hrt⟩ := h2 c hc
    have hg : s.getTask c = some t := by
      rw [AsyncScheduler.getTask_eq _ c h8]
      exact hct
    have hr : s.sleep_current_task d =
        { s.setTask c
            (some { t with state := .Sleeping ((s.timer_base + d) % U32) }) with
          current_task := none, needs_reschedule := true } := by
      simp only [AsyncScheduler.sleep_current_task, hc, hg]
    have htasks : ∀ j : Fin MAX_TASKS,
        (s.sleep_current_task d).tasks j =
          if j = ⟨c, h8⟩ then
            some { t with state := .Sleeping ((s.timer_base + d) % U32) }
          else s.tasks j := by
      intro j
      rw [hr]
      exact s.setTask_tasks c _ h8 j
    have hcur : (s.sleep_current_task d).current_task = none := by
      rw [hr]
    have hnext : (s.sleep_current_task d).next_task = s.next_task := by
      rw [hr]
      exact (s.setTask_frame c _).2.1
    refine ⟨?_, ?_, ?_⟩
    · intro j u hju hrun
      rw [htasks j] at hju
      by_cases hji : j = ⟨c, h8⟩
      · rw [if_pos hji] at hju
        injection hju with hu
        subst hu
        cases hrun
      · rw [if_neg hji] at hju
        have hcj := h1 j u hju hrun
        rw [hc] at hcj
        injection hcj with hv
        exact absurd (Fin.ext hv.symm) hji
    · intro c2 hc2
      rw [hcur] at hc2
      cases hc2
    · intro n hn
      rw [hnext] at hn
      obtain ⟨h8n, u, hnu, hur⟩ := h3 n hn
      refine ⟨h8n, u, ?_, hur⟩
      rw [htasks ⟨n, h8n⟩]
      have hne : (⟨n, h8n⟩ : Fin MAX_TASKS) ≠ ⟨c, h8⟩ := by
        intro hcontra
        rw [hcontra, hct] at hnu
        injection hnu with hu
        subst hu
        rw [hur] at hrt
        cases hrt
      rw [if_neg hne]
      exact hnu

theorem wokenSlot_cases (t : Nat) (o : Option Task) (u : Task)
    (h : wokenSlot t o = some u) :
    o = some u ∨ ∃ tk w, o = some tk ∧ tk.state = .Sleeping w ∧ t ≥ w ∧
      u = { tk with state := .Ready } := by
  cases o with
  | none => simp [wokenSlot] at h
  | some tk =>
    cases hts : tk.state with
    | Sleeping w =>
      by_cases hge : t ≥ w
      · right
        refine ⟨tk, w, rfl, hts, hge, ?_⟩
        simp [wokenSlot, hts, if_pos hge] at h
        exact h.symm
      · left
        simp [wokenSlot, hts, if_neg hge] at h
        rw [h]
    | Ready =>
      left
      simp [wokenSlot, hts] at h
      rw [h]
    | Running =>
      left
      simp [wokenSlot, hts] at h
      rw [h]
    | WaitingForEvent w =>
      left
      simp [wokenSlot, hts] at h
      rw [h]
    | Completed =>
      left
      simp [wokenSlot, hts] at h
      rw [h]

theorem wokenSlot_not_sleeping (t : Nat) (u : Task)
    (h : ∀ w, u.state ≠ .Sleeping w) : wokenSlot t (some u) = some u := by
  rw [wokenSlot]
  cases hts : u.state with
  | Sleeping w => exact absurd hts (h w)
  | Ready => rfl
  | Running => rfl
  | WaitingForEvent w => rfl
  | Completed => rfl

theorem Inv_tick (s : AsyncScheduler) (t : Nat) (hInv : Inv s) :
    Inv (s.update_timer t) := by
  obtain ⟨h1, h2, h3⟩ := hInv
  obtain ⟨g1, g2, _, _, _, _, _, _, _, hw⟩ := s.update_timer_spec t
  refine ⟨?_, ?_, ?_⟩
  · intro j u hju hrun
    rw [hw j] at hju
    rcases wokenSlot_cases t (s.tasks j) u hju with hsame | ⟨tk, w, _, _, _, hu⟩
    · rw [g1]
      exact h1 j u hsame hrun
    · subst hu
      cases hrun
  · intro c hc
    rw [g1] at hc
    obtain ⟨h8, u, hcu, hur⟩ := h2 c hc
    refine ⟨h8, u, ?_, hur⟩
    rw [hw ⟨c, h8⟩, hcu]
    exact wokenSlot_not_sleeping t u (fun w hcontra => by
      rw [hur] at hcontra
      cases hcontra)
  · intro n hn
    rw [g2] at hn
    obtain ⟨h8, u, hnu, hur⟩ := h3 n hn
    refine ⟨h8, u, ?_, hur⟩
    rw [hw ⟨n, h8⟩, hnu]
    exact wokenSlot_not_sleeping t u (fun w hcontra => by
      rw [hur] at hcontra
      cases hcontra)

theorem AsyncScheduler.getTask_congr (s s' : AsyncScheduler)
    (h : s'.tasks = s.tasks) (i : Nat) : s'.getTask i = s.getTask i := by
  rw [AsyncScheduler.getTask, AsyncScheduler.getTask, h]

theorem AsyncScheduler.isReadySlot_iff (s : AsyncScheduler) (tid : Nat) :
    s.isReadySlot tid = true ↔
      ∃ t, s.getTask tid = some t ∧ t.state = .Ready := by
  rw [isReadySlot]
  cases hg : s.getTask tid with
  | none => simp [slotReady]
  | some t =>
    rw [slotReady]
    constructor
    · intro h
      exact ⟨t, rfl, t.is_ready_iff.mp h⟩
    · rintro ⟨u, hu, hur⟩
      cases hu
      exact t.is_ready_iff.mpr hur

theorem AsyncScheduler.findReadyFrom_some_spec (s : AsyncScheduler)
    (start tid : Nat) (h : s.findReadyFrom start = some tid) :
    ∃ h8 : tid < MAX_TASKS, ∃ t, s.tasks ⟨tid, h8⟩ = some t ∧
      t.state = .Ready := by
  rw [findReadyFrom] at h
  have hp := List.find?_some h
  have hmem := List.mem_of_find?_eq_some h
  rw [List.mem_map] at hmem
  obtain ⟨i, _, hfi⟩ := hmem
  have h8 : tid < MAX_TASKS := by
    rw [← hfi]
    exact Nat.mod_lt _ (by decide)
  obtain ⟨t, hg, hrt⟩ := (s.isReadySlot_iff tid).mp hp
  rw [AsyncScheduler.getTask_eq _ tid h8] at hg
  exact ⟨h8, t, hg, hrt⟩

theorem AsyncScheduler.findReadyFrom_none_spec (s : AsyncScheduler)
    (start : Nat) (hstart : start < MAX_TASKS)
    (h : s.findReadyFrom start = none) :
    ∀ c, c < MAX_TASKS → s.isReadySlot c = false := by
  intro c hc
  rw [findReadyFrom, List.find?_eq_none] at h
  have hmem : c ∈ (List.range MAX_TASKS).map
      (fun i => (start + i) % MAX_TASKS) := by
    rw [List.mem_map]
    refine ⟨(c + MAX_TASKS - start) % MAX_TASKS, List.mem_range.mpr ?_, ?_⟩
    · simp only [MAX_TASKS]
      omega
    · simp only [MAX_TASKS] at hstart hc ⊢
      omega
  have h2 := h c hmem
  cases hb : s.isReadySlot c with
  | false => rfl
  | true => exact absurd hb h2

theorem AsyncScheduler.demote_of_none (s : AsyncScheduler)
    (hc : s.current_task = none) : s.demoteCurrent = s := by
  rw [demoteCurrent, hc]

theorem AsyncScheduler.demote_of_running (s : AsyncScheduler) (c : Nat)
    (h8 : c < MAX_TASKS) (t : Task) (hc : s.current_task = some c)
    (hct : s.tasks ⟨c, h8⟩ = some t) (hrt : t.state = .Running) :
    s.demoteCurrent = s.setTask c (some { t with state := .Ready }) := by
  have hg : s.getTask c = some t := by
    rw [AsyncScheduler.getTask_eq _ c h8]
    exact hct
  simp only [demoteCurrent, hc, hg, hrt, if_pos]

theorem AsyncScheduler.rescanPick_of_none (s : AsyncScheduler) (start : Nat)
    (hfr : s.findReadyFrom start = none) : s.rescanPick start = s := by
  rw [rescanPick, hfr]

theorem AsyncScheduler.rescanPick_of_some (s : AsyncScheduler)
    (start tid : Nat) (hfr : s.findReadyFrom start = some tid) :
    ∃ h8 : tid < MAX_TASKS, ∃ t, s.tasks ⟨tid, h8⟩ = some t ∧
      t.state = .Ready ∧
      s.rescanPick start =
        { s.setTask tid (some { t with state := .Running }) with
          current_task := some tid } := by
  obtain ⟨h8, t, hts, hrt⟩ := s.findReadyFrom_some_spec start tid hfr
  have hg : s.getTask tid = some t := by
    rw [AsyncScheduler.getTask_eq _ tid h8]
    exact hts
  refine ⟨h8, t, hts, hrt, ?_⟩
  simp only [rescanPick, hfr, hg]

theorem Inv_rescanPick (sb : AsyncScheduler) (start : Nat)
    (hnorun : ∀ j : Fin MAX_TASKS, ∀ u, sb.tasks j = some u →
      u.state ≠ .Running)
    (hcurok : ∀ c, sb.current_task = some c → ∃ h : c < MAX_TASKS,
      ∃ u, sb.tasks ⟨c, h⟩ = some u ∧ u.state = .Ready)
    (hstart : start < MAX_TASKS)
    (hnx : sb.next_task = none) :
    Inv (sb.rescanPick start) ∧ (sb.rescanPick start).next_task = none := by
  cases hfr : sb.findReadyFrom start with
  | none =>
    rw [sb.rescanPick_of_none start hfr]
    refine ⟨⟨?_, ?_, ?_⟩, hnx⟩
    · intro j u hju hrun
      exact absurd hrun (hnorun j u hju)
    · intro c hc
      obtain ⟨h8, u, hcu, hur⟩ := hcurok c hc
      have hready : sb.isReadySlot c = true := by
        rw [sb.isReadySlot_iff]
        exact ⟨u, by rw [AsyncScheduler.getTask_eq _ c h8]; exact hcu, hur⟩
      have := sb.findReadyFrom_none_spec start hstart hfr c h8
      rw [hready] at this
      cases this
    · intro n hn
      rw [hnx] at hn
      cases hn
  | some tid =>
    obtain ⟨h8, t, hts, hrt, hpick⟩ := sb.rescanPick_of_some start tid hfr
    rw [hpick]
    have htasks : ∀ j : Fin MAX_TASKS,
        ({ sb.setTask tid (some { t with state := .Running }) with
            current_task := some tid } : AsyncScheduler).tasks j =
          if j = ⟨tid, h8⟩ then some { t with state := .Running }
          else sb.tasks j := by
      intro j
      exact sb.setTask_tasks tid _ h8 j
    have hnext2 : ({ sb.setTask tid (some { t with state := .Running }) with
        current_task := some tid } : AsyncScheduler).next_task = none := by
      rw [show ({ sb.setTask tid (some { t with state := .Running }) with
          current_task := some tid } : AsyncScheduler).next_task =
          (sb.setTask tid (some { t with state := .Running })).next_task
        from rfl]
      rw [(sb.setTask_frame tid _).2.1]
      exact hnx
    refine ⟨⟨?_, ?_, ?_⟩, hnext2⟩
    · intro j u hju hrun
      rw [htasks j] at hju
      by_cases hji : j = ⟨tid, h8⟩
      · rw [hji]
      · rw [if_neg hji] at hju
        exact absurd hrun (hnorun j u hju)
    · intro c hc
      have hc2 : c = tid := by
        injection hc with hv
        exact hv.symm
      subst hc2
      refine ⟨h8, { t with state := .Running }, ?_, rfl⟩
      rw [htasks ⟨c, h8⟩, if_pos rfl]
    · intro n hn
      rw [hnext2] at hn
      cases hn

theorem Inv_rescan (s : AsyncScheduler) (hnt : s.next_task = none)
    (hInv : Inv s) :
    Inv s.scheduleRescan ∧ (s.scheduleRescan).next_task = none := by
  obtain ⟨h1, h2, h3⟩ := hInv
  cases hcur : s.current_task with
  | none =>
    have hr : s.scheduleRescan =
        AsyncScheduler.rescanPick { s with needs_reschedule := false } 0 := by
      simp only [AsyncScheduler.scheduleRescan, AsyncScheduler.demoteCurrent,
        hcur, Option.isNone_none, Bool.or_true, if_true]
    rw [hr]
    apply Inv_rescanPick
    · intro j u hju hrun
      have := h1 j u hju hrun
      rw [hcur] at this
      cases this
    · intro c hc
      rw [show ({ s with needs_reschedule := false } :
          AsyncScheduler).current_task = s.current_task from rfl, hcur] at hc
      cases hc
    · decide
    · exact hnt
  | some c =>
    obtain ⟨h8, t, hct, hrt⟩ := h2 c hcur
    cases hflag : s.needs_reschedule with
    | false =>
      have hr : s.scheduleRescan = { s with needs_reschedule := false } := by
        simp [AsyncScheduler.scheduleRescan, hcur, hflag]
      rw [hr]
      refine ⟨⟨h1, ?_, ?_⟩, hnt⟩
      · intro c2 hc2
        exact h2 c2 hc2
      · intro n hn
        exact h3 n hn
    | true =>
      have hdem : ({ s with needs_reschedule := false } :
          AsyncScheduler).demoteCurrent =
          AsyncScheduler.setTask { s with needs_reschedule := false } c
            (some { t with state := .Ready }) :=
        AsyncScheduler.demote_of_running _ c h8 t hcur hct hrt
      have hs1cur : (AsyncScheduler.setTask
          { s with needs_reschedule := false } c
          (some { t with state := .Ready })).current_task = some c := by
        rw [(AsyncScheduler.setTask_frame _ c _).1]
        exact hcur
      have hr : s.scheduleRescan =
          AsyncScheduler.rescanPick
            (AsyncScheduler.setTask { s with needs_reschedule := false } c
              (some { t with state := .Ready }))
            ((c + 1) % MAX_TASKS) := by
        simp only [AsyncScheduler.scheduleRescan, hflag, Bool.true_or,
          if_true, hdem, hs1cur]
      rw [hr]
      have hs1tasks : ∀ j : Fin MAX_TASKS,
          (AsyncScheduler.setTask { s with needs_reschedule := false } c
            (some { t with state := .Ready })).tasks j =
            if j = ⟨c, h8⟩ then some { t with state := .Ready }
            else s.tasks j :=
        fun j => AsyncScheduler.setTask_tasks _ c _ h8 j
      apply Inv_rescanPick
      · intro j u hju hrun
        rw [hs1tasks j] at hju
        by_cases hji : j = ⟨c, h8⟩
        · rw [if_pos hji] at hju
          injection hju with hu
          subst hu
          cases hrun
        · rw [if_neg hji] at hju
          have hcj := h1 j u hju hrun
          rw [hcur] at hcj
          injection hcj with hv
          exact absurd (Fin.ext hv.symm) hji
      · intro c2 hc2
        rw [hs1cur] at hc2
        injection hc2 with hv
        subst hv
        refine ⟨h8, { t with state := .Ready }, ?_, rfl⟩
        rw [hs1tasks ⟨c, h8⟩, if_pos rfl]
      · exact Nat.mod_lt _ (by decide)
      · rw [(AsyncScheduler.setTask_frame _ c _).2.1]
        exact hnt

theorem Inv_hotCommit (s3 : AsyncScheduler) (n : Nat) (h8 : n < MAX_TASKS)
    (tn : Task) (htn : s3.tasks ⟨n, h8⟩ = some tn)
    (hready : tn.state = .Ready)
    (hInv1 : ∀ j : Fin MAX_TASKS, ∀ u, s3.tasks j = some u →
      u.state = .Running → s3.current_task = some j.val)
    (hInv2 : ∀ c, s3.current_task = some c → ∃ h : c < MAX_TASKS,
      ∃ u, s3.tasks ⟨c, h⟩ = some u ∧ u.state = .Running)
    (hnx : s3.next_task = none) :
    Inv (s3.hotCommit n) := by
  have hg : s3.getTask n = some tn := by
    rw [AsyncScheduler.getTask_eq _ n h8]
    exact htn
  cases hcur : s3.current_task with
  | none =>
    have hr : s3.hotCommit n =
        { s3.setTask n (some { tn with state := .Running }) with
          current_task := some n } := by
      simp only [AsyncScheduler.hotCommit, hcur, hg]
    rw [hr]
    have htasks : ∀ j : Fin MAX_TASKS,
        ({ s3.setTask n (some { tn with state := .Running }) with
            current_task := some n } : AsyncScheduler).tasks j =
          if j = ⟨n, h8⟩ then some { tn with state := .Running }
          else s3.tasks j :=
      fun j => s3.setTask_tasks n _ h8 j
    refine ⟨?_, ?_, ?_⟩
    · intro j u hju hrun
      rw [htasks j] at hju
      by_cases hji : j = ⟨n, h8⟩
      · rw [hji]
      · rw [if_neg hji] at hju
        have := hInv1 j u hju hrun
        rw [hcur] at this
        cases this
    · intro c hc
      injection hc with hv
      subst hv
      refine ⟨h8, { tn with state := .Running }, ?_, rfl⟩
      rw [htasks ⟨n, h8⟩, if_pos rfl]
    · intro n2 hn2
      rw [show ({ s3.setTask n (some { tn with state := .Running }) with
          current_task := some n } : AsyncScheduler).next_task =
          (s3.setTask n (some { tn with state := .Running })).next_task
        from rfl, (s3.setTask_frame n _).2.1, hnx] at hn2
      cases hn2
  | some cid =>
    obtain ⟨h8c, tc, hctc, hrtc⟩ := hInv2 cid hcur
    have hne : cid ≠ n := by
      intro hcontra
      subst hcontra
      rw [show (⟨cid, h8⟩ : Fin MAX_TASKS) = ⟨cid, h8c⟩ from rfl, hctc] at htn
      injection htn with hv
      subst hv
      rw [hrtc] at hready
      cases hready
    have hgc : s3.getTask cid = some tc := by
      rw [AsyncScheduler.getTask_eq _ cid h8c]
      exact hctc
    have hg2 : (s3.setTask cid (some { tc with state := .Ready })).getTask n =
        some tn := by
      rw [AsyncScheduler.getTask_eq _ n h8, s3.setTask_tasks cid _ h8c ⟨n, h8⟩,
        if_neg (fun hcontra => hne (by
          have := congrArg Fin.val hcontra
          simp at this
          exact this.symm))]
      exact htn
    have hr : s3.hotCommit n =
        { (s3.setTask cid (some { tc with state := .Ready })).setTask n
            (some { tn with state := .Running }) with
          current_task := some n } := by
      simp only [AsyncScheduler.hotCommit, hcur, if_pos hne, hgc, hrtc,
        if_pos, hg2]
    rw [hr]
    have htasks : ∀ j : Fin MAX_TASKS,
        ({ (s3.setTask cid (some { tc with state := .Ready })).setTask n
            (some { tn with state := .Running }) with
          current_task := some n } : AsyncScheduler).tasks j =
          if j = ⟨n, h8⟩ then some { tn with state := .Running }
          else if j = ⟨cid, h8c⟩ then some { tc with state := .Ready }
          else s3.tasks j := by
      intro j
      rw [show ({ (s3.setTask cid (some { tc with state := .Ready })).setTask n
          (some { tn with state := .Running }) with
          current_task := some n } : AsyncScheduler).tasks j =
          ((s3.setTask cid (some { tc with state := .Ready })).setTask n
            (some { tn with state := .Running })).tasks j from rfl]
      rw [AsyncScheduler.setTask_tasks _ n _ h8 j]
      by_cases hji : j = ⟨n, h8⟩
      · rw [if_pos hji, if_pos hji]
      · rw [if_neg hji, if_neg hji, s3.setTask_tasks cid _ h8c j]
    refine ⟨?_, ?_, ?_⟩
    · intro j u hju hrun
      rw [htasks j] at hju
      by_cases hjn : j = ⟨n, h8⟩
      · rw [hjn]
      · rw [if_neg hjn] at hju
        by_cases hjc : j = ⟨cid, h8c⟩
        · rw [if_pos hjc] at hju
          injection hju with hu
          subst hu
          cases hrun
        · rw [if_neg hjc] at hju
          have hcurj := hInv1 j u hju hrun
          rw [hcur] at hcurj
          injection hcurj with hv
          exact absurd (Fin.ext hv.symm) hjc
    · intro c hc
      injection hc with hv
      subst hv
      refine ⟨h8, { tn with state := .Running }, ?_, rfl⟩
      rw [htasks ⟨n, h8⟩, if_pos rfl]
    · intro n2 hn2
      rw [show ({ (s3.setTask cid (some { tc with state := .Ready })).setTask n
          (some { tn with state := .Running }) with
          current_task := some n } : AsyncScheduler).next_task =
          ((s3.setTask cid (some { tc with state := .Ready })).setTask n
            (some { tn with state := .Running })).next_task from rfl,
        (AsyncScheduler.setTask_frame _ n _).2.1,
        (s3.setTask_frame cid _).2.1, hnx] at hn2
      cases hn2

theorem Inv_schedule (s : AsyncScheduler) (hInv : Inv s) :
    Inv (s.schedule).1 := by
  obtain ⟨hf1, hf2, hf3, _, _, _⟩ := s.process_events_frame
  have hinvpe : Inv (s.process_events).1 :=
    Inv_congr s (s.process_events).1 hf1 hf2 hf3 hInv
  have hinv3 : Inv { (s.process_events).1 with next_task := none } :=
    Inv_clear_next _ hinvpe
  cases hnt2 : s.next_task with
  | none =>
    have hsch : (s.schedule).1 = AsyncScheduler.scheduleRescan
        { (s.process_events).1 with next_task := none } := by
      simp only [AsyncScheduler.schedule, hf3, hnt2]
    rw [hsch]
    exact (Inv_rescan _ rfl hinv3).1
  | some n =>
    obtain ⟨h8, tn, htn, hrt⟩ := hInv.2.2 n hnt2
    have hg3 : ({ (s.process_events).1 with next_task := none } :
        AsyncScheduler).getTask n = some tn := by
      rw [AsyncScheduler.getTask_eq _ n h8]
      show (s.process_events).1.tasks ⟨n, h8⟩ = some tn
      rw [hf1]
      exact htn
    have hready : tn.is_ready = true := tn.is_ready_iff.mpr hrt
    have hsch : (s.schedule).1 = AsyncScheduler.hotCommit
        { (s.process_events).1 with next_task := none } n := by
      simp only [AsyncScheduler.schedule, hf3, hnt2, hg3, hready]
    rw [hsch]
    refine Inv_hotCommit _ n h8 tn ?_ hrt hinv3.1 hinv3.2.1 rfl
    show (s.process_events).1.tasks ⟨n, h8⟩ = some tn
    rw [hf1]
    exact htn

theorem Inv_apply (s : AsyncScheduler) (op : SchedOp) (hInv : Inv s) :
    Inv (SchedOp.apply s op) := by
  cases op with
  | spawn id p => exact Inv_spawn s _ rfl hInv
  | post e => exact Inv_post s e hInv
  | block event_id => exact Inv_block s event_id hInv
  | sleep d => exact Inv_sleep s d hInv
  | tick t => exact Inv_tick s _ hInv
  | sched => exact Inv_schedule s hInv

theorem Inv_runOps (ops : List SchedOp) : Inv (runOps ops) := by
  rw [runOps]
  suffices h : ∀ (l : List SchedOp) (s : AsyncScheduler), Inv s →
      Inv (l.foldl SchedOp.apply s) from h ops _ Inv_init
  intro l
  induction l with
  | nil =>
    intro s hs
    exact hs
  | cons op rest ih =>
    intro s hs
    rw [List.foldl_cons]
    exact ih _ (Inv_apply s op hs)

/-- C8: in every scheduler state reachable from the initial empty scheduler
by public operations (spawn, post, block, sleep, tick-advance,
next-to-run/schedule), at most one task slot holds a Running task, and
whenever `current_task = some c` the slot `c` holds a task in state
Running — which by uniqueness is that one Running task. -/
theorem C8_single_running (ops : List SchedOp) :
    (∀ i j : Fin MAX_TASKS, ∀ ti tj, (runOps ops).tasks i = some ti →
      ti.state = .Running → (runOps ops).tasks j = some tj →
      tj.state = .Running → i = j) ∧
    ∀ c, (runOps ops).current_task = some c → ∃ h : c < MAX_TASKS,
      ∃ t, (runOps ops).tasks ⟨c, h⟩ = some t ∧ t.state = .Running := by
  obtain ⟨h1, h2, _⟩ := Inv_runOps ops
  refine ⟨?_, h2⟩
  intro i j ti tj hti hrt htj hrj
  have hci := h1 i ti hti hrt
  have hcj := h1 j tj htj hrj
  rw [hci] at hcj
  injection hcj with hv
  exact Fin.ext hv

theorem AsyncScheduler.findReadyFrom_zero_min (s : AsyncScheduler) (tid : Nat)
    (h : s.findReadyFrom 0 = some tid) :
    ∀ j, j < tid → s.isReadySlot j = false := by
  rw [findReadyFrom] at h
  obtain ⟨k, hk, hget, hpa, hmin⟩ := find_idx_decomp _ _ tid h
  have hlen : ((List.range MAX_TASKS).map
      (fun i => (0 + i) % MAX_TASKS)).length = MAX_TASKS := by
    simp
  have helem : ∀ m, ∀ hm : m < MAX_TASKS,
      ((List.range MAX_TASKS).map (fun i => (0 + i) % MAX_TASKS)).get
        ⟨m, by omega⟩ = m := by
    intro m hm
    rw [List.get_eq_getElem, List.getElem_map, List.getElem_range]
    simp only [MAX_TASKS] at hm ⊢
    omega
  have htid : tid = k := by
    rw [← hget, helem k (by omega)]
  intro j hj
  have hj8 : j < MAX_TASKS := by omega
  have hjk : j < k := by omega
  have := hmin j (by omega) hjk
  rw [helem j hj8] at this
  exact this

/-- The plain scheduler holding T0 (Low) in slot 0 and T1 (High) in slot 1,
both Ready (spec scenario S2 run against `AsyncScheduler`). -/
def C1state : AsyncScheduler :=
  runOps [.spawn 0 .Low, .spawn 1 .High]

/-- The multi-priority executor holding T0 (Low) and T1 (High), both Ready
(spec scenario S2 run against `MultiPriorityExecutor`). -/
def C1exec : MultiPriorityExecutor :=
  ((MultiPriorityExecutor.init.spawn_task
    (Task.with_priority 0 .Low)).1.spawn_task (Task.with_priority 1 .High)).1

/-- C1 as stated is false on `AsyncScheduler::schedule`: with T0 Ready at
Low priority (slot 0) and T1 Ready at High priority (slot 1), the first call
selects and returns T0 — the Low-priority task — while the High-priority T1
is still Ready; the full rescan never consults priority. -/
theorem C1_counterexample :
    (C1state.schedule).2 = some ⟨0, .Low, .Running, none⟩ ∧
      (C1state.schedule).1.getTask 1 = some ⟨1, .High, .Ready, none⟩ := by
  decide

/-- C1 amended: the full rescan of `AsyncScheduler::schedule` picks purely
round-robin by slot index, ignoring priority — with `current_task = None`
(start index 0) the selected, Running-marked task is the Ready task of
lowest slot index, every lower slot being non-Ready; the spec's
priority-lowest selection (first call returns T1 when T0 is Low and T1 is
High) is realized only by `MultiPriorityExecutor::run_cycle`, which polls
the per-priority sub-schedulers in the order Critical, High, Normal, Low. -/
theorem C1_rescan_round_robin (s : AsyncScheduler)
    (hn : s.next_task = none) (hc : s.current_task = none)
    (hex : ∃ i : Fin MAX_TASKS, ∃ t, s.tasks i = some t ∧
      t.state = .Ready) :
    (∃ tid, ∃ h8 : tid < MAX_TASKS, ∃ t, s.tasks ⟨tid, h8⟩ = some t ∧
      t.state = .Ready ∧
      (∀ j, ∀ hj : j < MAX_TASKS, j < tid → ∀ u, s.tasks ⟨j, hj⟩ = some u →
        u.state ≠ .Ready) ∧
      (s.schedule).1.current_task = some tid ∧
      (s.schedule).2 = some { t with state := .Running }) ∧
    (C1exec.run_cycle).2 = some ⟨1, .High, .Running, none⟩ ∧
      (C1exec.run_cycle).1.current_priority = TaskPriority.High.toNat := by
  refine ⟨?_, by decide, by decide⟩
  obtain ⟨hf1, hf2, hf3, _, _, _⟩ := s.process_events_frame
  have hsch : s.schedule =
      (AsyncScheduler.scheduleRescan
        { (s.process_events).1 with next_task := none },
       match (AsyncScheduler.scheduleRescan
          { (s.process_events).1 with next_task := none }).current_task with
       | some id =>
         (AsyncScheduler.scheduleRescan
           { (s.process_events).1 with next_task := none }).getTask id
       | none => none) := by
    simp only [AsyncScheduler.schedule, hf3, hn]
  have hc3 : (s.process_events).1.current_task = none := by
    rw [hf2]
    exact hc
  have htasks3 : ({ (s.process_events).1 with next_task := none } :
      AsyncScheduler).tasks = s.tasks := by
    show (s.process_events).1.tasks = s.tasks
    exact hf1
  have hresc : AsyncScheduler.scheduleRescan
      { (s.process_events).1 with next_task := none } =
      AsyncScheduler.rescanPick
        { ({ (s.process_events).1 with next_task := none } : AsyncScheduler)
          with needs_reschedule := false } 0 := by
    simp only [AsyncScheduler.scheduleRescan, AsyncScheduler.demoteCurrent,
      hc3, Option.isNone_none, Bool.or_true, if_true]
  have htasksb : ({ ({ (s.process_events).1 with next_task := none } :
      AsyncScheduler) with needs_reschedule := false } :
      AsyncScheduler).tasks = s.tasks := htasks3
  cases hfr : AsyncScheduler.findReadyFrom
      { ({ (s.process_events).1 with next_task := none } : AsyncScheduler)
        with needs_reschedule := false } 0 with
  | none =>
    obtain ⟨i, t, hti, hrt⟩ := hex
    have hready : AsyncScheduler.isReadySlot
        { ({ (s.process_events).1 with next_task := none } : AsyncScheduler)
          with needs_reschedule := false } i.val = true := by
      rw [AsyncScheduler.isReadySlot_iff]
      refine ⟨t, ?_, hrt⟩
      rw [AsyncScheduler.getTask_eq _ i.val i.isLt, htasksb, Fin.eta]
      exact hti
    have := AsyncScheduler.findReadyFrom_none_spec _ 0 (by decide) hfr
      i.val i.isLt
    rw [hready] at this
    cases this
  | some tid =>
    obtain ⟨h8, t, htsb, hrt, hpick⟩ :=
      AsyncScheduler.rescanPick_of_some _ 0 tid hfr
    have hts : s.tasks ⟨tid, h8⟩ = some t := by
      rw [← htasksb]
      exact htsb
    have hmin := AsyncScheduler.findReadyFrom_zero_min _ tid hfr
    refine ⟨tid, h8, t, hts, hrt, ?_, ?_, ?_⟩
    · intro j hj hjt u hju hur
      have hready : AsyncScheduler.isReadySlot
          { ({ (s.process_events).1 with next_task := none } : AsyncScheduler)
            with needs_reschedule := false } j = true := by
        rw [AsyncScheduler.isReadySlot_iff]
        refine ⟨u, ?_, hur⟩
        rw [AsyncScheduler.getTask_eq _ j hj, htasksb]
        exact hju
      rw [hmin j hjt] at hready
      cases hready
    · rw [hsch]
      show (AsyncScheduler.scheduleRescan _).current_task = some tid
      rw [hresc, hpick]
    · rw [hsch]
      show (match (AsyncScheduler.scheduleRescan
          { (s.process_events).1 with next_task := none }).current_task with
        | some id =>
          (AsyncScheduler.scheduleRescan
            { (s.process_events).1 with next_task := none }).getTask id
        | none => none) = some { t with state := .Running }
      rw [hresc, hpick]
      show AsyncScheduler.getTask _ tid = some { t with state := .Running }
      rw [AsyncScheduler.getTask_eq _ tid h8]
      rw [show ({ AsyncScheduler.setTask
          { ({ (s.process_events).1 with next_task := none } : AsyncScheduler)
            with needs_reschedule := false } tid
          (some { t with state := .Running }) with
          current_task := some tid } : AsyncScheduler).tasks =
          (AsyncScheduler.setTask
            { ({ (s.process_events).1 with next_task := none } :
                AsyncScheduler) with needs_reschedule := false } tid
            (some { t with state := .Running })).tasks from rfl]
      rw [AsyncScheduler.setTask_tasks _ tid _ h8 ⟨tid, h8⟩, if_pos rfl]

/-- Witness for C1's amended statement at scenario S2's state: slot 0 (Low)
is the least Ready slot and is the one selected. -/
theorem C1_witness :
    C1state.next_task = none ∧ C1state.current_task = none ∧
      ∃ tid, ∃ h8 : tid < MAX_TASKS, ∃ t, C1state.tasks ⟨tid, h8⟩ = some t ∧
        t.state = .Ready ∧
        (∀ j, ∀ hj : j < MAX_TASKS, j < tid → ∀ u,
          C1state.tasks ⟨j, hj⟩ = some u → u.state ≠ .Ready) ∧
        (C1state.schedule).1.current_task = some tid ∧
        (C1state.schedule).2 = some { t with state := .Running } :=
  ⟨by decide, by decide,
    (C1_rescan_round_robin C1state (by decide) (by decide)
      ⟨⟨0, by decide⟩, ⟨0, .Low, .Ready, none⟩, by decide, by decide⟩).1⟩

end KOS
